import Mathlib

/-!
Verification of the Faypath merit-ranking, risk-scoring and alert-delivery
engine.  Each definition is a shallow embedding of the corresponding
TypeScript function; timestamps are modelled as integer epoch milliseconds
and JS numeric arithmetic as exact rational arithmetic.
-/

namespace Faypath

/-! ### String helpers (list codec and tokenizers) -/

/-- A character counts as alphanumeric for prompt tokenization
(the JS splitter regexp keeps runs of `[a-z0-9]`). -/
def jsAlnum (c : Char) : Bool :=
  ('a' ≤ c && c ≤ 'z') || ('0' ≤ c && c ≤ '9')

/-- JS `s.trim()`, expressed structurally on the character list so that it
evaluates inside the kernel. -/
def jsTrim (value : String) : String :=
  String.mk
    (((value.data.dropWhile fun c => c.isWhitespace).reverse.dropWhile
      fun c => c.isWhitespace).reverse)

/-- JS `s.toLowerCase()` (ASCII letters). -/
def jsToLower (value : String) : String :=
  String.mk (value.data.map Char.toLower)

/-- Splitting a character list at every separator character, keeping empty
chunks, exactly like a single-character-class JS `split`. -/
def splitCharsAux (p : Char → Bool) : List Char → List Char → List (List Char)
  | acc, [] => [acc.reverse]
  | acc, c :: rest =>
    if p c then acc.reverse :: splitCharsAux p [] rest
    else splitCharsAux p (c :: acc) rest

/-- JS `s.split(<character class>)`. -/
def jsSplit (value : String) (p : Char → Bool) : List String :=
  (splitCharsAux p [] value.data).map String.mk

/-- JS `s.slice(0, n)`. -/
def jsSlice (value : String) (n : ℕ) : String :=
  String.mk (value.data.take n)

/-- `normalizeToken` from `list-codec`: trim then lowercase. -/
def normalizeToken (value : String) : String :=
  jsToLower (jsTrim value)

/-- `tokenize` from `application-scoring`: lowercase, split on non-alphanumeric
runs, keep tokens of length at least 3. -/
def tokenize (value : String) : List String :=
  (((jsSplit (jsToLower value) fun c => !jsAlnum c).map jsTrim).filter
    fun token => 3 ≤ token.length)

/-- Separator characters of the list codec (`[,\n|]`). -/
def listSepChar (c : Char) : Bool :=
  c == ',' || c == '\n' || c == '|'

/-- `parseList` from `list-codec`. -/
def parseList (value : String) : List String :=
  ((jsSplit value fun c => listSepChar c).map jsTrim).filter fun entry => entry != ""

/-- Case-insensitive first-seen deduplication used by `parseUniqueList`;
`seen` carries the lowercased keys already emitted. -/
def dedupCaseInsensitive : List String → List String → List String
  | _, [] => []
  | seen, entry :: rest =>
    if seen.contains (jsToLower entry) then dedupCaseInsensitive seen rest
    else entry :: dedupCaseInsensitive (jsToLower entry :: seen) rest

/-- `parseUniqueList` from `list-codec`. -/
def parseUniqueList (value : String) : List String :=
  dedupCaseInsensitive [] (parseList value)

/-- `encodeList` from `list-codec`. -/
def encodeList (values : List String) : String :=
  String.intercalate ", " ((values.map jsTrim).filter fun entry => entry != "")

/-- Substring test on character lists (JS `String.prototype.includes`). -/
def listContainsSub (needle : List Char) : List Char → Bool
  | [] => needle.isEmpty
  | c :: rest => needle.isPrefixOf (c :: rest) || listContainsSub needle rest

/-- JS `hay.includes(needle)`. -/
def jsIncludes (hay needle : String) : Bool :=
  listContainsSub needle.data hay.data

/-- JS `s.startsWith(p)`, expressed on character lists. -/
def jsStartsWith (s p : String) : Bool :=
  p.data.isPrefixOf s.data

/-! ### Scoring engine (`application-scoring`) -/

structure ScreenerAnswer where
  question : String
  answer : String
deriving Repr, DecidableEq

/-- The per-answer check inside `answerMatchesPrompt`: a nonempty normalized
answer passes when it equals "yes", starts with "yes ", or contains one of
the prompt tokens. -/
def answerEntryMatches (tokens : List String) (entry : ScreenerAnswer) : Bool :=
  if normalizeToken entry.answer == "" then false
  else if normalizeToken entry.answer == "yes" ||
      jsStartsWith (normalizeToken entry.answer) "yes " then true
  else tokens.any fun token => jsIncludes (normalizeToken entry.answer) token

/-- `answerMatchesPrompt`: the prompt's first 8 tokens must be nonempty, and
some submitted answer must satisfy `answerEntryMatches`. -/
def answerMatchesPrompt (prompt : String) (answers : List ScreenerAnswer) : Bool :=
  let tokens := (tokenize prompt).take 8
  if tokens.isEmpty then false
  else answers.any (answerEntryMatches tokens)

/-- `extractSkillsFromAnswers`: tokens of length at least 4 drawn from all
question/answer pairs, deduplicated through the list codec. -/
def extractSkillsFromAnswers (answers : List ScreenerAnswer) : List String :=
  parseUniqueList (String.intercalate ", "
    (((answers.map fun entry => tokenize (entry.question ++ " " ++ entry.answer)).flatten).filter
      fun token => 4 ≤ token.length))

/-- JS `Math.round`: the floor of `value + 1/2`, computed on the reduced
numerator and denominator so that it evaluates inside the kernel. -/
def jsRound (value : ℚ) : ℤ :=
  (2 * value.num + (value.den : ℤ)) / (2 * (value.den : ℤ))

/-- `clampScore`: round, then clamp into `[0, 100]`. -/
def clampScore (value : ℚ) : ℤ :=
  max 0 (min 100 (jsRound value))

theorem jsRound_natCast (n : ℕ) : jsRound ((n : ℕ) : ℚ) = (n : ℤ) := by
  unfold jsRound
  rw [Rat.num_natCast, Rat.den_natCast]
  push_cast
  omega

structure ScoringJob where
  meritFit : ℚ
  requiredScreeners : String
  preferredScreeners : String
  requiredSkills : String
  preferredSkills : String
  title : String
  company : String
deriving Repr, DecidableEq

structure ScoringUser where
  profileSkills : String
  profileCompleteness : ℚ
  createdAtMs : ℤ
  email : String
  isFlagged : Bool
deriving Repr, DecidableEq

structure ScoringInput where
  job : ScoringJob
  user : ScoringUser
  answers : List ScreenerAnswer
  recentApplicationCount : ℕ
  priorFraudEventsForIp : ℕ
  nowMs : ℤ
deriving Repr

structure ApplicationScoringResult where
  requiredPassed : Bool
  requiredScore : ℕ
  preferredScore : ℕ
  autoRankScore : ℤ
  matchExplanation : String
  missingSkills : List String
  profileFixSuggestions : List String
  submittedAnswers : String
  riskScore : ℤ
  riskFlags : List String
  needsManualReview : Bool
  blockForAbuse : Bool
deriving Repr, DecidableEq

/-- Account age in milliseconds at evaluation time. -/
def accountAgeMs (input : ScoringInput) : ℤ :=
  input.nowMs - input.user.createdAtMs

/-- Number of required screener prompts after unique parsing. -/
def requiredScreenerCount (input : ScoringInput) : ℕ :=
  (parseUniqueList input.job.requiredScreeners).length

/-- Risk flags in push order.  The source compares the age in hours with 1
and with 0.17; over exact arithmetic `ageMs / 3600000 < 1` is `ageMs <
3600000` and `ageMs / 3600000 < 0.17` is `ageMs < 612000`. -/
def riskFlagsOf (input : ScoringInput) : List String :=
  (if 6 ≤ input.recentApplicationCount then ["high_application_velocity"] else []) ++
  (if 12 ≤ input.recentApplicationCount then ["extreme_application_velocity"] else []) ++
  (if accountAgeMs input < 3600000 then ["new_account"] else []) ++
  (if accountAgeMs input < 612000 then ["very_new_account"] else []) ++
  (if 0 < input.priorFraudEventsForIp then ["ip_history_flagged"] else []) ++
  (if input.user.isFlagged then ["user_previously_flagged"] else []) ++
  (if input.answers.isEmpty && decide (0 < requiredScreenerCount input) then
    ["missing_required_answers"] else [])

/-- The additive risk score before clamping, one summand per rule. -/
def riskScoreRaw (input : ScoringInput) : ℕ :=
  (if 6 ≤ input.recentApplicationCount then 22 else 0) +
  (if 12 ≤ input.recentApplicationCount then 20 else 0) +
  (if accountAgeMs input < 3600000 then 18 else 0) +
  (if accountAgeMs input < 612000 then 18 else 0) +
  (if 0 < input.priorFraudEventsForIp then min 24 (input.priorFraudEventsForIp * 6) else 0) +
  (if input.user.isFlagged then 26 else 0) +
  (if input.answers.isEmpty && decide (0 < requiredScreenerCount input) then 10 else 0)

/-- The risk contributions that do not depend on the account age. -/
def riskScoreRawNoAccountAge (input : ScoringInput) : ℕ :=
  (if 6 ≤ input.recentApplicationCount then 22 else 0) +
  (if 12 ≤ input.recentApplicationCount then 20 else 0) +
  (if 0 < input.priorFraudEventsForIp then min 24 (input.priorFraudEventsForIp * 6) else 0) +
  (if input.user.isFlagged then 26 else 0) +
  (if input.answers.isEmpty && decide (0 < requiredScreenerCount input) then 10 else 0)

/-- `evaluateApplication` from `application-scoring`. -/
def evaluateApplication (input : ScoringInput) : ApplicationScoringResult :=
  let requiredScreeners := parseUniqueList input.job.requiredScreeners
  let preferredScreeners := parseUniqueList input.job.preferredScreeners
  let requiredSkills := parseUniqueList input.job.requiredSkills
  let preferredSkills := parseUniqueList input.job.preferredSkills
  let answerSkills := extractSkillsFromAnswers input.answers
  let profileSkills := parseUniqueList input.user.profileSkills
  let candidateSkills := parseUniqueList (String.intercalate ", " (profileSkills ++ answerSkills))
  let candidateSkillIndex := candidateSkills.map normalizeToken
  let requiredScore := requiredScreeners.countP fun s => answerMatchesPrompt s input.answers
  let preferredScore := preferredScreeners.countP fun s => answerMatchesPrompt s input.answers
  let missingSkills := requiredSkills.filter fun sk =>
    !(candidateSkillIndex.contains (normalizeToken sk))
  let missingPreferredSkills := preferredSkills.filter fun sk =>
    !(candidateSkillIndex.contains (normalizeToken sk))
  let requiredPassed : Bool :=
    requiredScreeners.length == 0 || decide (requiredScreeners.length ≤ requiredScore)
  let riskFlags := riskFlagsOf input
  let riskScore := riskScoreRaw input
  let requiredRatio : ℚ :=
    if 0 < requiredScreeners.length then (requiredScore : ℚ) / (requiredScreeners.length : ℚ)
    else 1
  let preferredRatio : ℚ :=
    if 0 < preferredScreeners.length then (preferredScore : ℚ) / (preferredScreeners.length : ℚ)
    else 0.6
  let rawRank : ℚ :=
    input.job.meritFit * 0.52 + requiredRatio * 28 + preferredRatio * 12 +
      input.user.profileCompleteness * 0.12 - (missingSkills.length : ℚ) * 7 -
      (missingPreferredSkills.length : ℚ) * 2 - (riskScore : ℚ) * 0.24
  let fix1 : List String :=
    if input.user.profileCompleteness < 80 then
      ["Increase profile completeness to at least 80%."] else []
  let fix2 : List String :=
    if 0 < missingSkills.length then
      ["Add evidence for required skills: " ++ String.intercalate ", " missingSkills ++ "."]
    else []
  let fix3 : List String :=
    if 0 < missingPreferredSkills.length then
      ["Strengthen preferred skills coverage: " ++
        String.intercalate ", " (missingPreferredSkills.take 3) ++ "."]
    else []
  let fix4 : List String :=
    if requiredScore < requiredScreeners.length then
      ["Provide stronger examples for required screener prompts."] else []
  let fixes := fix1 ++ fix2 ++ fix3 ++ fix4
  let profileFixSuggestions :=
    if fixes.isEmpty then
      ["Profile is strong. Add fresh outcome metrics to stay competitive."] else fixes
  let autoRankScore := clampScore rawRank
  let needsManualReview : Bool := decide (45 ≤ riskScore) || !requiredPassed
  let blockForAbuse : Bool := decide (72 ≤ riskScore)
  let matchExplanation := String.intercalate " "
    [(if requiredPassed then "Passed" else "Missed") ++ " required screeners (" ++
        toString requiredScore ++ "/" ++ toString requiredScreeners.length ++ ").",
      "Preferred screener alignment " ++ toString preferredScore ++ "/" ++
        toString preferredScreeners.length ++ ".",
      (if 0 < missingSkills.length then
        "Missing required skills: " ++ String.intercalate ", " missingSkills ++ "."
      else "No required skill gaps detected."),
      "Auto-rank " ++ toString autoRankScore ++ "/100 for " ++ input.job.title ++
        " at " ++ input.job.company ++ "."]
  let submittedAnswers := encodeList
    (input.answers.map fun entry => entry.question ++ ": " ++ jsSlice entry.answer 220)
  { requiredPassed := requiredPassed
    requiredScore := requiredScore
    preferredScore := preferredScore
    autoRankScore := autoRankScore
    matchExplanation := matchExplanation
    missingSkills := missingSkills
    profileFixSuggestions := profileFixSuggestions
    submittedAnswers := submittedAnswers
    riskScore := clampScore (riskScore : ℚ)
    riskFlags := riskFlags
    needsManualReview := needsManualReview
    blockForAbuse := blockForAbuse }

/-! ### Basic scoring lemmas -/

theorem clampScore_natCast (n : ℕ) : clampScore (n : ℚ) = min 100 (n : ℤ) := by
  unfold clampScore
  rw [jsRound_natCast]
  omega

theorem evaluateApplication_riskScore (input : ScoringInput) :
    (evaluateApplication input).riskScore = min 100 ((riskScoreRaw input : ℕ) : ℤ) := by
  simp only [evaluateApplication]
  exact clampScore_natCast _

theorem evaluateApplication_riskScore_ge_iff (input : ScoringInput) (t : ℤ)
    (ht : t ≤ 100) :
    (t ≤ (evaluateApplication input).riskScore) ↔ (t ≤ (riskScoreRaw input : ℤ)) := by
  rw [evaluateApplication_riskScore]
  omega

theorem evaluateApplication_riskFlags (input : ScoringInput) :
    (evaluateApplication input).riskFlags = riskFlagsOf input := by
  simp only [evaluateApplication]

theorem mem_riskFlagsOf_new_account (input : ScoringInput) :
    "new_account" ∈ riskFlagsOf input ↔ accountAgeMs input < 3600000 := by
  unfold riskFlagsOf
  split_ifs <;> simp_all

theorem mem_riskFlagsOf_very_new_account (input : ScoringInput) :
    "very_new_account" ∈ riskFlagsOf input ↔ accountAgeMs input < 612000 := by
  unfold riskFlagsOf
  split_ifs <;> simp_all

theorem riskScoreRaw_age_split (input : ScoringInput) :
    riskScoreRaw input = riskScoreRawNoAccountAge input +
      (if accountAgeMs input < 3600000 then 18 else 0) +
      (if accountAgeMs input < 612000 then 18 else 0) := by
  unfold riskScoreRaw riskScoreRawNoAccountAge
  split_ifs <;> omega

/-- C1: for every input to `evaluateApplication`, the returned
`needsManualReview` is true iff the returned `riskScore` is at least 45 or
the returned `requiredPassed` is false. -/
theorem evaluateApplication_needsManualReview_iff (input : ScoringInput) :
    (evaluateApplication input).needsManualReview = true ↔
      (45 ≤ (evaluateApplication input).riskScore ∨
        (evaluateApplication input).requiredPassed = false) := by
  have h45 : (45 ≤ (evaluateApplication input).riskScore) ↔
      (45 ≤ (riskScoreRaw input : ℤ)) :=
    evaluateApplication_riskScore_ge_iff input 45 (by norm_num)
  rw [h45]
  simp only [evaluateApplication, Bool.or_eq_true, decide_eq_true_eq, Bool.not_eq_true']
  constructor
  · rintro (h | h)
    · exact Or.inl (by exact_mod_cast h)
    · exact Or.inr h
  · rintro (h | h)
    · exact Or.inl (by exact_mod_cast h)
    · exact Or.inr h

/-- C9: risk scoring adds 18 points with flag `new_account` whenever the
account age is under one hour, and whenever the account age is additionally
under ten minutes the flag `very_new_account` is present with a further
18 points contributed to the risk sum. -/
theorem evaluateApplication_accountAge_risk (input : ScoringInput)
    (h : accountAgeMs input < 3600000) :
    "new_account" ∈ (evaluateApplication input).riskFlags ∧
    riskScoreRaw input = riskScoreRawNoAccountAge input + 18 +
      (if "very_new_account" ∈ (evaluateApplication input).riskFlags then 18 else 0) ∧
    (accountAgeMs input < 600000 → "very_new_account" ∈ (evaluateApplication input).riskFlags) := by
  rw [evaluateApplication_riskFlags]
  refine ⟨(mem_riskFlagsOf_new_account input).mpr h, ?_, fun h10 =>
    (mem_riskFlagsOf_very_new_account input).mpr (by omega)⟩
  rw [riskScoreRaw_age_split, if_pos h]
  by_cases hv : accountAgeMs input < 612000
  · rw [if_pos hv, if_pos ((mem_riskFlagsOf_very_new_account input).mpr hv)]
  · rw [if_neg hv, if_neg (fun hmem => hv ((mem_riskFlagsOf_very_new_account input).mp hmem))]

/-- Concrete scoring input for the account-age witness: account created ten
minutes before a benign evaluation. -/
def ageWitnessInput : ScoringInput :=
  { job := { meritFit := 80, requiredScreeners := "", preferredScreeners := "",
             requiredSkills := "", preferredSkills := "", title := "Engineer",
             company := "Acme" }
    user := { profileSkills := "", profileCompleteness := 90, createdAtMs := 0,
              email := "a@example.com", isFlagged := false }
    answers := []
    recentApplicationCount := 0
    priorFraudEventsForIp := 0
    nowMs := 300000 }

theorem evaluateApplication_accountAge_risk_witness :
    accountAgeMs ageWitnessInput < 3600000 ∧
    "new_account" ∈ (evaluateApplication ageWitnessInput).riskFlags ∧
    "very_new_account" ∈ (evaluateApplication ageWitnessInput).riskFlags ∧
    riskScoreRaw ageWitnessInput = riskScoreRawNoAccountAge ageWitnessInput + 18 + 18 := by
  have h := evaluateApplication_accountAge_risk ageWitnessInput (by decide)
  refine ⟨by decide, h.1, h.2.2 (by decide), ?_⟩
  have hv : "very_new_account" ∈ (evaluateApplication ageWitnessInput).riskFlags :=
    h.2.2 (by decide)
  rw [h.2.1, if_pos hv]

/-! ### C8: screener matching -/

/-- The pass condition exactly as the claim words it, used only to compare the
claim against the code: some answer equals or begins with "yes", or its
normalized text contains at least one of the prompt's first 8 tokens. -/
def claimAnswerMatchesPrompt (prompt : String) (answers : List ScreenerAnswer) : Bool :=
  answers.any fun entry =>
    normalizeToken entry.answer == "yes" ||
      jsStartsWith (normalizeToken entry.answer) "yes" ||
      ((tokenize prompt).take 8).any fun token =>
        jsIncludes (normalizeToken entry.answer) token

/-- C8 counterexample: the answer "yesterday" begins with "yes", so the claim
counts the prompt "golang experience" as passed, but the code does not. -/
theorem answerMatchesPrompt_claim_counterexample :
    claimAnswerMatchesPrompt "golang experience" [⟨"q", "yesterday"⟩] = true ∧
    answerMatchesPrompt "golang experience" [⟨"q", "yesterday"⟩] = false := by
  constructor <;> decide

theorem mem_take_tokenize_data_ne_nil (prompt : String) (tk : String)
    (htk : tk ∈ (tokenize prompt).take 8) : tk.data ≠ [] := by
  have h1 : tk ∈ tokenize prompt := List.take_subset _ _ htk
  have h2 : 3 ≤ tk.length := by
    unfold tokenize at h1
    have := (List.mem_filter.mp h1).2
    simpa using this
  have h3 : tk.length = tk.data.length := rfl
  intro hd
  rw [h3, hd] at h2
  simp at h2

theorem answerEntryMatches_iff (tokens : List String)
    (htok : ∀ tk ∈ tokens, tk.data ≠ []) (entry : ScreenerAnswer) :
    answerEntryMatches tokens entry = true ↔
      (normalizeToken entry.answer = "yes" ∨
        jsStartsWith (normalizeToken entry.answer) "yes " = true ∨
        ∃ token ∈ tokens, jsIncludes (normalizeToken entry.answer) token = true) := by
  unfold answerEntryMatches
  generalize normalizeToken entry.answer = n
  by_cases he : n = ""
  · subst he
    rw [if_pos (by decide)]
    constructor
    · intro hf
      exact absurd hf (by decide)
    · rintro (h1 | h2 | ⟨tk, htk, hinc⟩)
      · exact absurd h1 (by decide)
      · exact absurd h2 (by decide)
      · have hne := htok tk htk
        unfold jsIncludes at hinc
        rw [show ("" : String).data = [] from rfl, listContainsSub] at hinc
        exact (hne (by simpa using hinc)).elim
  · rw [if_neg (by simpa using he)]
    by_cases hy : (n == "yes" || jsStartsWith n "yes ") = true
    · rw [if_pos hy]
      simp only [Bool.or_eq_true, beq_iff_eq] at hy
      simp only [true_iff]
      rcases hy with hy | hy
      · exact Or.inl hy
      · exact Or.inr (Or.inl hy)
    · rw [if_neg hy]
      simp only [Bool.or_eq_true, beq_iff_eq, not_or] at hy
      rw [List.any_eq_true]
      constructor
      · rintro ⟨tk, htk, hinc⟩
        exact Or.inr (Or.inr ⟨tk, htk, hinc⟩)
      · rintro (h1 | h2 | ⟨tk, htk, hinc⟩)
        · exact absurd h1 hy.1
        · exact absurd h2 (by simpa using hy.2)
        · exact ⟨tk, htk, hinc⟩

/-- C8 amended: a prompt counts as passed iff it has at least one token (first
8 alphanumeric tokens of length at least 3) and some answer's normalized text
equals "yes", begins with "yes " (including the space), or contains one of
those tokens. -/
theorem answerMatchesPrompt_iff (prompt : String) (answers : List ScreenerAnswer) :
    answerMatchesPrompt prompt answers = true ↔
      ((tokenize prompt).take 8 ≠ [] ∧ ∃ entry ∈ answers,
        (normalizeToken entry.answer = "yes" ∨
          jsStartsWith (normalizeToken entry.answer) "yes " = true ∨
          ∃ token ∈ (tokenize prompt).take 8,
            jsIncludes (normalizeToken entry.answer) token = true)) := by
  unfold answerMatchesPrompt
  rcases h : (tokenize prompt).take 8 with _ | ⟨t, ts⟩
  · simp
  · rw [if_neg (by simp)]
    rw [List.any_eq_true]
    have htok : ∀ tk ∈ t :: ts, tk.data ≠ [] := by
      intro tk htk
      refine mem_take_tokenize_data_ne_nil prompt tk ?_
      rw [h]
      exact htk
    constructor
    · rintro ⟨entry, hmem, hent⟩
      exact ⟨by simp, entry, hmem, (answerEntryMatches_iff _ htok entry).mp hent⟩
    · rintro ⟨-, entry, hmem, hent⟩
      exact ⟨entry, hmem, (answerEntryMatches_iff _ htok entry).mpr hent⟩

/-! ### Application submission handler (`POST /api/applications`)

The model starts after authentication, rate limiting and body parsing (all
out of scope); `nowMs` stands for the handler's clock and `newAppId` for the
id the store would assign to a newly created application row. -/

structure JobRow where
  id : ℕ
  meritFit : ℚ
  requiredScreeners : String
  preferredScreeners : String
  requiredSkills : String
  preferredSkills : String
  title : String
  company : String
deriving Repr, DecidableEq

structure UserRow where
  id : String
  email : String
  createdAtMs : ℤ
  profileSkills : String
  profileCompleteness : ℚ
  isFlagged : Bool
deriving Repr, DecidableEq

structure AppRecord where
  id : ℕ
  jobId : ℕ
  userId : String
  status : String
  screenerRequiredPassed : Bool
  screenerRequiredScore : ℕ
  screenerPreferredScore : ℕ
  autoRankScore : ℤ
  matchExplanation : String
  missingSkills : String
  profileFixSuggestions : String
  submittedAnswers : String
  riskScore : ℤ
  riskFlags : String
  needsManualReview : Bool
  sourceIp : String
  userAgent : Option String
  appliedAtMs : ℤ
deriving Repr, DecidableEq

structure FraudEvent where
  flow : String
  userId : String
  sourceIp : String
  severity : String
  decision : String
  detail : String
  createdAtMs : ℤ
deriving Repr, DecidableEq

structure SubmitStore where
  jobs : List JobRow
  users : List UserRow
  applications : List AppRecord
  fraudEvents : List FraudEvent
deriving Repr, DecidableEq

inductive SubmitResponse
  | failure (status : ℕ) (message : String)
  | success (status : ℕ) (record : AppRecord)
deriving Repr, DecidableEq

/-- Applications by this applicant in the last 15 minutes. -/
def recentApplicationCountOf (st : SubmitStore) (userId : String) (nowMs : ℤ) : ℕ :=
  st.applications.countP fun a =>
    a.userId == userId && decide (nowMs - 900000 ≤ a.appliedAtMs)

/-- Fraud events for the submitting address in the last 24 hours with a
manual-review or block decision. -/
def priorFraudEventsForIpOf (st : SubmitStore) (sourceIp : String) (nowMs : ℤ) : ℕ :=
  st.fraudEvents.countP fun e =>
    e.sourceIp == sourceIp && decide (nowMs - 86400000 ≤ e.createdAtMs) &&
      (e.decision == "manual_review" || e.decision == "block")

/-- The scoring input assembled by the handler from the fetched job and user
rows. -/
def submissionScoringInput (job : JobRow) (user : UserRow)
    (answers : List ScreenerAnswer) (recentApplicationCount : ℕ)
    (priorFraudEventsForIp : ℕ) (nowMs : ℤ) : ScoringInput :=
  { job := { meritFit := job.meritFit, requiredScreeners := job.requiredScreeners,
             preferredScreeners := job.preferredScreeners,
             requiredSkills := job.requiredSkills,
             preferredSkills := job.preferredSkills,
             title := job.title, company := job.company }
    user := { profileSkills := user.profileSkills,
              profileCompleteness := user.profileCompleteness,
              createdAtMs := user.createdAtMs, email := user.email,
              isFlagged := user.isFlagged }
    answers := answers
    recentApplicationCount := recentApplicationCount
    priorFraudEventsForIp := priorFraudEventsForIp
    nowMs := nowMs }

/-- The fraud event the handler records when any risk flag fired. -/
def submissionFraudEvent (scoring : ApplicationScoringResult) (userId : String)
    (jobId : ℕ) (sourceIp : String) (nowMs : ℤ) : FraudEvent :=
  { flow := "application_create", userId := userId, sourceIp := sourceIp,
    severity :=
      if 72 ≤ scoring.riskScore then "high"
      else if 45 ≤ scoring.riskScore then "medium" else "low",
    decision :=
      if scoring.blockForAbuse then "block"
      else if scoring.needsManualReview then "manual_review" else "allow",
    detail := "jobId=" ++ toString jobId ++ ";risk=" ++ toString scoring.riskScore ++
      ";flags=" ++ encodeList scoring.riskFlags,
    createdAtMs := nowMs }

/-- The application row the handler persists when the submission is allowed. -/
def submissionRecord (scoring : ApplicationScoringResult) (userId : String)
    (jobId : ℕ) (sourceIp : String) (userAgent : Option String) (nowMs : ℤ)
    (newAppId : ℕ) : AppRecord :=
  { id := newAppId, jobId := jobId, userId := userId, status := "Applied",
    screenerRequiredPassed := scoring.requiredPassed,
    screenerRequiredScore := scoring.requiredScore,
    screenerPreferredScore := scoring.preferredScore,
    autoRankScore := scoring.autoRankScore,
    matchExplanation := scoring.matchExplanation,
    missingSkills := encodeList scoring.missingSkills,
    profileFixSuggestions := encodeList scoring.profileFixSuggestions,
    submittedAnswers := scoring.submittedAnswers,
    riskScore := scoring.riskScore,
    riskFlags := encodeList scoring.riskFlags,
    needsManualReview := scoring.needsManualReview,
    sourceIp := sourceIp, userAgent := userAgent, appliedAtMs := nowMs }

/-- The `POST` handler of the applications route, from the job/user lookup
onward. -/
def postApplication (st : SubmitStore) (userId : String) (jobId : ℕ)
    (answers : List ScreenerAnswer) (sourceIp : String) (userAgent : Option String)
    (nowMs : ℤ) (newAppId : ℕ) : SubmitStore × SubmitResponse :=
  match st.jobs.find? fun j => j.id == jobId with
  | none => (st, .failure 404 "Job not found")
  | some job =>
    match st.users.find? fun u => u.id == userId with
    | none => (st, .failure 404 "User not found")
    | some user =>
      match st.applications.find? fun a => a.userId == userId && a.jobId == jobId with
      | some existing => (st, .success 200 existing)
      | none =>
        let scoring := evaluateApplication (submissionScoringInput job user answers
          (recentApplicationCountOf st userId nowMs)
          (priorFraudEventsForIpOf st sourceIp nowMs) nowMs)
        let st1 :=
          if 0 < scoring.riskFlags.length then
            { st with fraudEvents := st.fraudEvents ++
              [submissionFraudEvent scoring userId jobId sourceIp nowMs] }
          else st
        if scoring.blockForAbuse then
          (st1, .failure 429
            "Application blocked due to abuse risk. Contact support if this is a mistake.")
        else
          let record := submissionRecord scoring userId jobId sourceIp userAgent nowMs newAppId
          ({ st1 with applications := st1.applications ++ [record] }, .success 201 record)

theorem ite_singleton_eq_nil {α : Type} {c : Prop} [Decidable c] {a : α}
    (h : (if c then [a] else ([] : List α)) = []) : ¬c := by
  intro hc
  rw [if_pos hc] at h
  simp at h

/-- Some risk rule fired whenever the raw risk sum is positive. -/
theorem riskFlagsOf_ne_nil_of_raw_pos (input : ScoringInput)
    (h : 0 < riskScoreRaw input) : riskFlagsOf input ≠ [] := by
  intro hnil
  unfold riskFlagsOf at hnil
  simp only [List.append_eq_nil] at hnil
  obtain ⟨⟨⟨⟨⟨⟨h1, h2⟩, h3⟩, h4⟩, h5⟩, h6⟩, h7⟩ := hnil
  unfold riskScoreRaw at h
  rw [if_neg (ite_singleton_eq_nil h1), if_neg (ite_singleton_eq_nil h2),
    if_neg (ite_singleton_eq_nil h3), if_neg (ite_singleton_eq_nil h4),
    if_neg (ite_singleton_eq_nil h5), if_neg (ite_singleton_eq_nil h6),
    if_neg (ite_singleton_eq_nil h7)] at h
  simp at h

/-- C2: if an application for the (applicant, job) pair already exists, the
handler returns it unchanged, performs no scoring, and leaves the store
untouched. -/
theorem postApplication_idempotent (st : SubmitStore) (userId : String) (jobId : ℕ)
    (answers : List ScreenerAnswer) (sourceIp : String) (userAgent : Option String)
    (nowMs : ℤ) (newAppId : ℕ) (job : JobRow) (user : UserRow) (existing : AppRecord)
    (hj : st.jobs.find? (fun j => j.id == jobId) = some job)
    (hu : st.users.find? (fun u => u.id == userId) = some user)
    (hex : st.applications.find? (fun a => a.userId == userId && a.jobId == jobId) =
      some existing) :
    postApplication st userId jobId answers sourceIp userAgent nowMs newAppId =
      (st, .success 200 existing) := by
  unfold postApplication
  rw [hj, hu, hex]

def idemWitnessJob : JobRow :=
  { id := 1, meritFit := 95, requiredScreeners := "", preferredScreeners := "",
    requiredSkills := "", preferredSkills := "", title := "Engineer", company := "Acme" }

def idemWitnessUser : UserRow :=
  { id := "u1", email := "a@example.com", createdAtMs := 0, profileSkills := "",
    profileCompleteness := 90, isFlagged := false }

def idemWitnessRecord : AppRecord :=
  { id := 7, jobId := 1, userId := "u1", status := "Applied",
    screenerRequiredPassed := true, screenerRequiredScore := 0,
    screenerPreferredScore := 0, autoRankScore := 88, matchExplanation := "",
    missingSkills := "", profileFixSuggestions := "", submittedAnswers := "",
    riskScore := 0, riskFlags := "", needsManualReview := false,
    sourceIp := "1.1.1.1", userAgent := none, appliedAtMs := 100 }

def idemWitnessStore : SubmitStore :=
  { jobs := [idemWitnessJob], users := [idemWitnessUser],
    applications := [idemWitnessRecord], fraudEvents := [] }

theorem postApplication_idempotent_witness :
    postApplication idemWitnessStore "u1" 1 [] "1.1.1.1" none 1000000 8 =
      (idemWitnessStore, .success 200 idemWitnessRecord) :=
  postApplication_idempotent idemWitnessStore "u1" 1 [] "1.1.1.1" none 1000000 8
    idemWitnessJob idemWitnessUser idemWitnessRecord rfl rfl rfl

/-- C3: when scoring yields a risk score of at least 72, `blockForAbuse` is
true and the handler persists no application row; it appends exactly one
fraud event (decision "block", severity "high") and answers with the 429
rejection. -/
theorem postApplication_blockForAbuse (st : SubmitStore) (userId : String)
    (jobId : ℕ) (answers : List ScreenerAnswer) (sourceIp : String)
    (userAgent : Option String) (nowMs : ℤ) (newAppId : ℕ) (job : JobRow)
    (user : UserRow)
    (hj : st.jobs.find? (fun j => j.id == jobId) = some job)
    (hu : st.users.find? (fun u => u.id == userId) = some user)
    (hex : st.applications.find? (fun a => a.userId == userId && a.jobId == jobId) =
      none)
    (hrisk : 72 ≤ (evaluateApplication (submissionScoringInput job user answers
      (recentApplicationCountOf st userId nowMs)
      (priorFraudEventsForIpOf st sourceIp nowMs) nowMs)).riskScore) :
    (evaluateApplication (submissionScoringInput job user answers
      (recentApplicationCountOf st userId nowMs)
      (priorFraudEventsForIpOf st sourceIp nowMs) nowMs)).blockForAbuse = true ∧
    postApplication st userId jobId answers sourceIp userAgent nowMs newAppId =
      ({ st with fraudEvents := st.fraudEvents ++
          [submissionFraudEvent (evaluateApplication (submissionScoringInput job user
            answers (recentApplicationCountOf st userId nowMs)
            (priorFraudEventsForIpOf st sourceIp nowMs) nowMs)) userId jobId sourceIp
            nowMs] },
        .failure 429
          "Application blocked due to abuse risk. Contact support if this is a mistake.") ∧
    (submissionFraudEvent (evaluateApplication (submissionScoringInput job user answers
      (recentApplicationCountOf st userId nowMs)
      (priorFraudEventsForIpOf st sourceIp nowMs) nowMs)) userId jobId sourceIp
      nowMs).decision = "block" ∧
    (submissionFraudEvent (evaluateApplication (submissionScoringInput job user answers
      (recentApplicationCountOf st userId nowMs)
      (priorFraudEventsForIpOf st sourceIp nowMs) nowMs)) userId jobId sourceIp
      nowMs).severity = "high" := by
  have hraw : 72 ≤ riskScoreRaw (submissionScoringInput job user answers
      (recentApplicationCountOf st userId nowMs)
      (priorFraudEventsForIpOf st sourceIp nowMs) nowMs) := by
    exact_mod_cast (evaluateApplication_riskScore_ge_iff _ 72 (by norm_num)).mp hrisk
  have hblock : (evaluateApplication (submissionScoringInput job user answers
      (recentApplicationCountOf st userId nowMs)
      (priorFraudEventsForIpOf st sourceIp nowMs) nowMs)).blockForAbuse = true := by
    simp only [evaluateApplication]
    exact decide_eq_true hraw
  have hflags : 0 < (evaluateApplication (submissionScoringInput job user answers
      (recentApplicationCountOf st userId nowMs)
      (priorFraudEventsForIpOf st sourceIp nowMs) nowMs)).riskFlags.length := by
    rw [evaluateApplication_riskFlags]
    exact List.length_pos.mpr (riskFlagsOf_ne_nil_of_raw_pos _ (by omega))
  refine ⟨hblock, ?_, ?_, ?_⟩
  · unfold postApplication
    rw [hj, hu, hex]
    simp only [hblock, if_pos hflags, if_true]
  · unfold submissionFraudEvent
    rw [hblock]
    rfl
  · unfold submissionFraudEvent
    rw [if_pos hrisk]

def blockWitnessJob : JobRow :=
  { id := 2, meritFit := 50, requiredScreeners := "Why this role",
    preferredScreeners := "", requiredSkills := "", preferredSkills := "",
    title := "Analyst", company := "Beta" }

def blockWitnessUser : UserRow :=
  { id := "u2", email := "b@example.com", createdAtMs := 5000, profileSkills := "",
    profileCompleteness := 50, isFlagged := true }

def blockWitnessStore : SubmitStore :=
  { jobs := [blockWitnessJob], users := [blockWitnessUser], applications := [],
    fraudEvents := [] }

theorem postApplication_blockForAbuse_witness :
    (postApplication blockWitnessStore "u2" 2 [] "9.9.9.9" none 5000 1).1.applications
        = [] ∧
    (postApplication blockWitnessStore "u2" 2 [] "9.9.9.9" none 5000 1).2 =
      .failure 429
        "Application blocked due to abuse risk. Contact support if this is a mistake." := by
  have h := postApplication_blockForAbuse blockWitnessStore "u2" 2 [] "9.9.9.9" none
    5000 1 blockWitnessJob blockWitnessUser rfl rfl rfl (by decide)
  constructor
  · rw [h.2.1]
    rfl
  · rw [h.2.1]

/-! ### Pipeline automation: interviewer load and rebalancing
(`pipeline-automation`, snapshot part used by the rebalancing claim) -/

structure Interview where
  id : ℕ
  person : String
  owner : String
  timeMs : ℤ
deriving Repr, DecidableEq

structure LoadEntry where
  owner : String
  scheduled : ℕ
  nextInterviewAtMs : Option ℤ
deriving Repr, DecidableEq

structure InterviewLoadStat where
  owner : String
  scheduled : ℕ
  nextInterviewAtMs : Option ℤ
  loadLevel : String
deriving Repr, DecidableEq

structure InterviewRebalanceSuggestion where
  interviewId : ℕ
  person : String
  currentOwner : String
  suggestedOwner : String
  timeMs : ℤ
  reason : String
deriving Repr, DecidableEq

/-- Owners in first-appearance order, i.e. the key order of the
`interviewsByOwner` insertion-ordered map. -/
def ownersFirstSeen (seen : List String) : List Interview → List String
  | [] => []
  | i :: rest =>
    if seen.contains i.owner then ownersFirstSeen seen rest
    else i.owner :: ownersFirstSeen (i.owner :: seen) rest

/-- The `loadEntries` array: one entry per owner of an upcoming interview,
with the scheduled count and the earliest upcoming time. -/
def interviewLoadEntries (upcomingInterviews : List Interview) : List LoadEntry :=
  (ownersFirstSeen [] upcomingInterviews).map fun owner =>
    { owner := owner
      scheduled := upcomingInterviews.countP fun i => i.owner == owner
      nextInterviewAtMs :=
        ((upcomingInterviews.filter fun i => i.owner == owner).map
          fun i => i.timeMs).min? }

/-- `avgLoad`: mean scheduled count across owners, 0 when there are none. -/
def avgLoad (entries : List LoadEntry) : ℚ :=
  if entries.length = 0 then 0
  else ((entries.map fun e => (e.scheduled : ℚ)).sum) / (entries.length : ℚ)

/-- Load level relative to the mean: high at mean+1 and above, low at mean-1
and below. -/
def loadLevelOf (avg : ℚ) (scheduled : ℕ) : String :=
  if avg + 1 ≤ (scheduled : ℚ) then "high"
  else if (scheduled : ℚ) ≤ avg - 1 then "low"
  else "balanced"

/-- Stable insertion for the descending sort by scheduled count
(JS `sort((a, b) => b.scheduled - a.scheduled)` is stable). -/
def insertStatDesc (stat : InterviewLoadStat) :
    List InterviewLoadStat → List InterviewLoadStat
  | [] => [stat]
  | e :: rest =>
    if e.scheduled ≤ stat.scheduled then stat :: e :: rest
    else e :: insertStatDesc stat rest

def sortStatsDesc : List InterviewLoadStat → List InterviewLoadStat
  | [] => []
  | e :: rest => insertStatDesc e (sortStatsDesc rest)

/-- The `loadStats` array: entries with their load level, sorted by scheduled
count descending. -/
def interviewLoadStats (upcomingInterviews : List Interview) : List InterviewLoadStat :=
  sortStatsDesc ((interviewLoadEntries upcomingInterviews).map fun e =>
    { owner := e.owner, scheduled := e.scheduled,
      nextInterviewAtMs := e.nextInterviewAtMs,
      loadLevel := loadLevelOf (avgLoad (interviewLoadEntries upcomingInterviews))
        e.scheduled })

/-- Lookup in the `virtualCounts` map (`get(...) ?? 0`). -/
def vcGet (vc : List (String × ℤ)) (k : String) : ℤ :=
  match vc.find? fun p => p.1 == k with
  | some p => p.2
  | none => 0

/-- Update in the `virtualCounts` map. -/
def vcSet (vc : List (String × ℤ)) (k : String) (v : ℤ) : List (String × ℤ) :=
  match vc with
  | [] => [(k, v)]
  | p :: rest => if p.1 == k then (k, v) :: rest else p :: vcSet rest k v

/-- Stable insertion for the ascending sort of underloaded owners by current
virtual count. -/
def insertOwnerAsc (vc : List (String × ℤ)) (o : String) : List String → List String
  | [] => [o]
  | x :: rest =>
    if vcGet vc o ≤ vcGet vc x then o :: x :: rest
    else x :: insertOwnerAsc vc o rest

def sortOwnersAsc (vc : List (String × ℤ)) : List String → List String
  | [] => []
  | o :: rest => insertOwnerAsc vc o (sortOwnersAsc vc rest)

/-- The inner `while` loop of the rebalancing pass for one overloaded owner:
pop the owner's next upcoming interview, re-sort the underloaded owners by
virtual count, and move the interview to the least-loaded target unless the
gap is already at most 1.  (The source sorts the underloaded array in place;
re-sorting from the original order differs only in the order of ties.) -/
def moveLoop (overloadedOwner : String) (underloaded : List String) :
    List Interview → List (String × ℤ) →
      List InterviewRebalanceSuggestion × List (String × ℤ)
  | [], vc => ([], vc)
  | nextInterview :: rest, vc =>
    if underloaded.isEmpty then ([], vc)
    else
      let targetOwner := (sortOwnersAsc vc underloaded).headD ""
      let sourceCount := vcGet vc overloadedOwner
      let targetCount := vcGet vc targetOwner
      if sourceCount - targetCount ≤ 1 then ([], vc)
      else
        let next := moveLoop overloadedOwner underloaded rest
          (vcSet (vcSet vc overloadedOwner (sourceCount - 1)) targetOwner
            (targetCount + 1))
        ({ interviewId := nextInterview.id, person := nextInterview.person,
            currentOwner := overloadedOwner, suggestedOwner := targetOwner,
            timeMs := nextInterview.timeMs,
            reason := "Reduce interviewer load from " ++ toString sourceCount ++
              " to " ++ toString (sourceCount - 1) ++ ", and raise " ++ targetOwner ++
              " from " ++ toString targetCount ++ " to " ++
              toString (targetCount + 1) ++ "." } :: next.1,
          next.2)

/-- The outer loop over overloaded owners, threading the virtual counts. -/
def rebalanceLoop (underloaded : List String) (pools : String → List Interview) :
    List String → List (String × ℤ) →
      List InterviewRebalanceSuggestion × List (String × ℤ)
  | [], vc => ([], vc)
  | o :: rest, vc =>
    let r := moveLoop o underloaded (pools o) vc
    let r2 := rebalanceLoop underloaded pools rest r.2
    (r.1 ++ r2.1, r2.2)

/-- The rebalancing pass of `getPipelineAutomationSnapshot`: suggestions plus
the final virtual counts. -/
def rebalanceRun (upcomingInterviews : List Interview) :
    List InterviewRebalanceSuggestion × List (String × ℤ) :=
  rebalanceLoop
    (((interviewLoadStats upcomingInterviews).filter fun s =>
      s.loadLevel == "low").map fun s => s.owner)
    (fun o => upcomingInterviews.filter fun i => i.owner == o)
    (((interviewLoadStats upcomingInterviews).filter fun s =>
      s.loadLevel == "high").map fun s => s.owner)
    ((interviewLoadStats upcomingInterviews).map fun s => (s.owner, (s.scheduled : ℤ)))

/-- The `rebalanceSuggestions` field of the snapshot. -/
def rebalanceSuggestionsOf (upcomingInterviews : List Interview) :
    List InterviewRebalanceSuggestion :=
  (rebalanceRun upcomingInterviews).1

theorem mem_ownersFirstSeen (x : String) (l : List Interview) :
    ∀ seen : List String,
      x ∈ ownersFirstSeen seen l ↔
        (x ∈ l.map (fun i => i.owner) ∧ x ∉ seen) := by
  induction l with
  | nil =>
    intro seen
    simp [ownersFirstSeen]
  | cons i rest ih =>
    intro seen
    unfold ownersFirstSeen
    by_cases hc : seen.contains i.owner = true
    · rw [if_pos hc, ih seen]
      have hmem : i.owner ∈ seen := List.elem_iff.mp hc
      simp only [List.map_cons, List.mem_cons]
      constructor
      · rintro ⟨hmap, hns⟩
        exact ⟨Or.inr hmap, hns⟩
      · rintro ⟨heq | hmap, hns⟩
        · exact absurd (heq ▸ hmem) hns
        · exact ⟨hmap, hns⟩
    · rw [if_neg hc]
      have hnm : i.owner ∉ seen := fun h => hc (List.elem_iff.mpr h)
      simp only [List.mem_cons, ih (i.owner :: seen), List.map_cons]
      constructor
      · rintro (heq | ⟨hmap, hns⟩)
        · subst heq
          exact ⟨Or.inl rfl, hnm⟩
        · simp only [List.mem_cons, not_or] at hns
          exact ⟨Or.inr hmap, hns.2⟩
      · rintro ⟨heq | hmap, hns⟩
        · exact Or.inl heq
        · by_cases hx : x = i.owner
          · exact Or.inl hx
          · refine Or.inr ⟨hmap, ?_⟩
            simp only [List.mem_cons, not_or]
            exact ⟨hx, hns⟩

theorem nodup_ownersFirstSeen (l : List Interview) :
    ∀ seen : List String, (ownersFirstSeen seen l).Nodup := by
  induction l with
  | nil =>
    intro seen
    simp [ownersFirstSeen]
  | cons i rest ih =>
    intro seen
    unfold ownersFirstSeen
    by_cases hc : seen.contains i.owner = true
    · rw [if_pos hc]
      exact ih seen
    · rw [if_neg hc, List.nodup_cons]
      refine ⟨?_, ih _⟩
      intro hmem
      have h := (mem_ownersFirstSeen i.owner rest (i.owner :: seen)).mp hmem
      exact h.2 (List.mem_cons_self _ _)

theorem nodup_pair_eq (L : List String) (A B : String) (hAB : A ≠ B)
    (hsub : ∀ x ∈ L, x = A ∨ x = B) (hA : A ∈ L) (hB : B ∈ L) (hnd : L.Nodup) :
    L = [A, B] ∨ L = [B, A] := by
  rcases L with _ | ⟨x, L1⟩
  · cases hA
  rcases L1 with _ | ⟨y, L2⟩
  · simp only [List.mem_singleton] at hA hB
    exact absurd (hA.trans hB.symm) hAB
  have hx := hsub x (by simp)
  have hy := hsub y (by simp)
  have hxy : x ≠ y := by
    rw [List.nodup_cons] at hnd
    intro h
    exact hnd.1 (h ▸ List.mem_cons_self y L2)
  have hL2 : L2 = [] := by
    rcases L2 with _ | ⟨z, L3⟩
    · rfl
    exfalso
    have hz := hsub z (by simp)
    rw [List.nodup_cons, List.nodup_cons] at hnd
    have hzx : z ≠ x := by
      intro h
      exact hnd.1 (by simp [← h])
    have hzy : z ≠ y := by
      intro h
      exact hnd.2.1 (by simp [← h])
    rcases hx with hx | hx <;> rcases hy with hy | hy <;> rcases hz with hz | hz <;>
      first
      | exact hxy (hx.trans hy.symm)
      | exact hzx (hz.trans hx.symm)
      | exact hzy (hz.trans hy.symm)
  subst hL2
  rcases hx with hx | hx <;> rcases hy with hy | hy
  · exact absurd (hx.trans hy.symm) hxy
  · subst hx
    subst hy
    exact Or.inl rfl
  · subst hx
    subst hy
    exact Or.inr rfl
  · exact absurd (hx.trans hy.symm) hxy

theorem ownersFirstSeen_pair (l : List Interview) (A B : String) (hAB : A ≠ B)
    (hown : ∀ i ∈ l, i.owner = A ∨ i.owner = B)
    (hA : 0 < l.countP fun i => i.owner == A)
    (hB : 0 < l.countP fun i => i.owner == B) :
    ownersFirstSeen [] l = [A, B] ∨ ownersFirstSeen [] l = [B, A] := by
  refine nodup_pair_eq _ A B hAB ?_ ?_ ?_ (nodup_ownersFirstSeen l [])
  · intro x hx
    obtain ⟨hmap, -⟩ := (mem_ownersFirstSeen x l []).mp hx
    obtain ⟨i, hi, hieq⟩ := List.mem_map.mp hmap
    rcases hown i hi with h | h
    · exact Or.inl (by rw [← hieq]; exact h)
    · exact Or.inr (by rw [← hieq]; exact h)
  · rw [mem_ownersFirstSeen]
    refine ⟨?_, by simp⟩
    obtain ⟨i, hi, hbeq⟩ := List.countP_pos_iff.mp hA
    exact List.mem_map.mpr ⟨i, hi, by simpa using hbeq⟩
  · rw [mem_ownersFirstSeen]
    refine ⟨?_, by simp⟩
    obtain ⟨i, hi, hbeq⟩ := List.countP_pos_iff.mp hB
    exact List.mem_map.mpr ⟨i, hi, by simpa using hbeq⟩

theorem interviewLoadEntries_pair (l : List Interview) (A B : String) (hAB : A ≠ B)
    (hown : ∀ i ∈ l, i.owner = A ∨ i.owner = B)
    (hA5 : l.countP (fun i => i.owner == A) = 5)
    (hB1 : l.countP (fun i => i.owner == B) = 1) :
    ∃ mA mB,
      interviewLoadEntries l = [⟨A, 5, mA⟩, ⟨B, 1, mB⟩] ∨
      interviewLoadEntries l = [⟨B, 1, mB⟩, ⟨A, 5, mA⟩] := by
  refine ⟨((l.filter fun i => i.owner == A).map fun i => i.timeMs).min?,
    ((l.filter fun i => i.owner == B).map fun i => i.timeMs).min?, ?_⟩
  rcases ownersFirstSeen_pair l A B hAB hown (by omega) (by omega) with h | h <;>
    [left; right] <;>
    simp [interviewLoadEntries, h, hA5, hB1]

theorem interviewLoadStats_pair (l : List Interview) (A B : String) (hAB : A ≠ B)
    (hown : ∀ i ∈ l, i.owner = A ∨ i.owner = B)
    (hA5 : l.countP (fun i => i.owner == A) = 5)
    (hB1 : l.countP (fun i => i.owner == B) = 1) :
    ∃ mA mB,
      interviewLoadStats l = [⟨A, 5, mA, "high"⟩, ⟨B, 1, mB, "low"⟩] := by
  obtain ⟨mA, mB, hent | hent⟩ := interviewLoadEntries_pair l A B hAB hown hA5 hB1 <;>
    refine ⟨mA, mB, ?_⟩ <;>
    · unfold interviewLoadStats
      rw [hent]
      norm_num [avgLoad, loadLevelOf, sortStatsDesc, insertStatDesc]

theorem moveLoop_five_one (o t : String) (hot : (o == t) = false)
    (i1 i2 i3 : Interview) (rest : List Interview) :
    moveLoop o [t] (i1 :: i2 :: i3 :: rest) [(o, 5), (t, 1)] =
      ([{ interviewId := i1.id, person := i1.person, currentOwner := o,
          suggestedOwner := t, timeMs := i1.timeMs,
          reason := "Reduce interviewer load from " ++ toString (5 : ℤ) ++ " to " ++
            toString (4 : ℤ) ++ ", and raise " ++ t ++ " from " ++ toString (1 : ℤ) ++
            " to " ++ toString (2 : ℤ) ++ "." },
        { interviewId := i2.id, person := i2.person, currentOwner := o,
          suggestedOwner := t, timeMs := i2.timeMs,
          reason := "Reduce interviewer load from " ++ toString (4 : ℤ) ++ " to " ++
            toString (3 : ℤ) ++ ", and raise " ++ t ++ " from " ++ toString (2 : ℤ) ++
            " to " ++ toString (3 : ℤ) ++ "." }],
        [(o, 3), (t, 3)]) := by
  have htt : (t == t) = true := by simp
  have hoo : (o == o) = true := by simp
  rw [moveLoop]
  simp only [List.isEmpty_cons, sortOwnersAsc, insertOwnerAsc, List.headD,
    vcGet, vcSet, List.find?, hot, hoo, htt, if_true, if_false, cond_true,
    cond_false, Bool.false_eq_true, ite_false, ite_true]
  norm_num
  rw [moveLoop]
  simp only [List.isEmpty_cons, sortOwnersAsc, insertOwnerAsc, List.headD,
    vcGet, vcSet, List.find?, hot, hoo, htt, if_true, if_false, cond_true,
    cond_false, Bool.false_eq_true, ite_false, ite_true]
  norm_num
  rw [moveLoop]
  simp only [List.isEmpty_cons, sortOwnersAsc, insertOwnerAsc, List.headD,
    vcGet, vcSet, List.find?, hot, hoo, htt, if_true, if_false, cond_true,
    cond_false, Bool.false_eq_true, ite_false, ite_true]
  norm_num

/-- Shared characterization of the rebalancing pass for the two-owner, 5/1
scenario: exactly two moves from the overloaded to the underloaded owner,
ending at virtual counts 3 and 3. -/
theorem rebalanceRun_five_one_core (l : List Interview) (A B : String)
    (hAB : A ≠ B) (hown : ∀ i ∈ l, i.owner = A ∨ i.owner = B)
    (hA5 : l.countP (fun i => i.owner == A) = 5)
    (hB1 : l.countP (fun i => i.owner == B) = 1) :
    ∃ s1 s2,
      rebalanceRun l = ([s1, s2], [(A, 3), (B, 3)]) ∧
      s1.currentOwner = A ∧ s1.suggestedOwner = B ∧
      s2.currentOwner = A ∧ s2.suggestedOwner = B := by
  obtain ⟨mA, mB, hstats⟩ := interviewLoadStats_pair l A B hAB hown hA5 hB1
  have hab : (A == B) = false := by
    simp [hAB]
  have hhl : (("high" : String) == "low") = false := by decide
  have hlh : (("low" : String) == "high") = false := by decide
  have hhh : (("high" : String) == "high") = true := by decide
  have hll : (("low" : String) == "low") = true := by decide
  have hlen : (l.filter fun i => i.owner == A).length = 5 := by
    rw [← hA5]
    exact (List.countP_eq_length_filter _ _).symm
  rcases hp : l.filter (fun i => i.owner == A) with _ | ⟨i1, l1⟩
  · rw [hp] at hlen
    simp at hlen
  rcases l1 with _ | ⟨i2, l2⟩
  · rw [hp] at hlen
    simp at hlen
  rcases l2 with _ | ⟨i3, l3⟩
  · rw [hp] at hlen
    simp at hlen
  refine ⟨⟨i1.id, i1.person, A, B, i1.timeMs,
      "Reduce interviewer load from " ++ toString (5 : ℤ) ++ " to " ++
        toString (4 : ℤ) ++ ", and raise " ++ B ++ " from " ++ toString (1 : ℤ) ++
        " to " ++ toString (2 : ℤ) ++ "."⟩,
    ⟨i2.id, i2.person, A, B, i2.timeMs,
      "Reduce interviewer load from " ++ toString (4 : ℤ) ++ " to " ++
        toString (3 : ℤ) ++ ", and raise " ++ B ++ " from " ++ toString (2 : ℤ) ++
        " to " ++ toString (3 : ℤ) ++ "."⟩, ?_, rfl, rfl, rfl, rfl⟩
  unfold rebalanceRun
  rw [hstats]
  simp only [List.filter_cons, List.filter_nil, List.map_cons, List.map_nil,
    hhl, hlh, hhh, hll, if_true, if_false, Bool.false_eq_true, ite_false,
    ite_true]
  simp only [rebalanceLoop]
  rw [hp]
  simp only [Nat.cast_ofNat, Nat.cast_one]
  rw [moveLoop_five_one A B hab i1 i2 i3 l3]
  simp

/-- C7 amended: for exactly two interviewers with upcoming scheduled counts 5
and 1, the snapshot suggests exactly two moves, each reassigning an interview
from the loaded owner to the idle one; the final virtual counts are 3 and 3,
so the gap is reduced to at most 1 and the target ends no more loaded than
the source. -/
theorem rebalanceSuggestions_five_one (l : List Interview) (A B : String)
    (hAB : A ≠ B) (hown : ∀ i ∈ l, i.owner = A ∨ i.owner = B)
    (hA5 : l.countP (fun i => i.owner == A) = 5)
    (hB1 : l.countP (fun i => i.owner == B) = 1) :
    (rebalanceSuggestionsOf l).length = 2 ∧
    (∀ s ∈ rebalanceSuggestionsOf l, s.currentOwner = A ∧ s.suggestedOwner = B) ∧
    vcGet (rebalanceRun l).2 A = 3 ∧ vcGet (rebalanceRun l).2 B = 3 := by
  obtain ⟨s1, s2, heq, h1c, h1s, h2c, h2s⟩ :=
    rebalanceRun_five_one_core l A B hAB hown hA5 hB1
  have hab : (A == B) = false := by
    simp [hAB]
  unfold rebalanceSuggestionsOf
  rw [heq]
  refine ⟨rfl, ?_, ?_, ?_⟩
  · intro s hs
    simp only [List.mem_cons, List.not_mem_nil, or_false] at hs
    rcases hs with rfl | rfl
    · exact ⟨h1c, h1s⟩
    · exact ⟨h2c, h2s⟩
  · simp [vcGet, List.find?]
  · simp [vcGet, List.find?, hab]

/-- Two interviewers, scheduled counts 5 and 1. -/
def rebalanceWitnessInterviews : List Interview :=
  [⟨1, "p1", "alice", 100⟩, ⟨2, "p2", "alice", 200⟩, ⟨3, "p3", "alice", 300⟩,
    ⟨4, "p4", "alice", 400⟩, ⟨5, "p5", "alice", 500⟩, ⟨6, "p6", "bob", 600⟩]

theorem rebalanceSuggestions_five_one_witness :
    (rebalanceSuggestionsOf rebalanceWitnessInterviews).length = 2 ∧
    vcGet (rebalanceRun rebalanceWitnessInterviews).2 "alice" = 3 ∧
    vcGet (rebalanceRun rebalanceWitnessInterviews).2 "bob" = 3 := by
  have h := rebalanceSuggestions_five_one rebalanceWitnessInterviews "alice" "bob"
    (by decide) (by decide) (by decide) (by decide)
  exact ⟨h.1, h.2.2.1, h.2.2.2⟩

/-- C7 counterexample: with counts 5 and 1 the code emits two rebalance
suggestions, not exactly one as the claim states. -/
theorem rebalance_single_move_counterexample :
    (rebalanceSuggestionsOf rebalanceWitnessInterviews).length = 2 ∧
    ¬((rebalanceSuggestionsOf rebalanceWitnessInterviews).length = 1) := by
  obtain ⟨s1, s2, heq, -, -, -, -⟩ := rebalanceRun_five_one_core
    rebalanceWitnessInterviews "alice" "bob" (by decide) (by decide) (by decide)
    (by decide)
  unfold rebalanceSuggestionsOf
  rw [heq]
  simp

/-! ### Alert delivery engine (`alerts-delivery`)

State is a store of saved searches, job alerts and delivery-log rows; the
external channel providers are modelled as oracles indexed by the number of
calls made so far, so a run is deterministic given the oracles.  `NowT`
carries both the epoch milliseconds and the local hour of the run clock.
Outbound webhook audit events are fire-and-forget calls into an external
module (failures are swallowed) and are not part of the state. -/

structure AlertJobInfo where
  title : String
  company : String
  location : String
  salary : String
  meritFit : ℤ
deriving Repr, DecidableEq

structure JobAlert where
  id : ℕ
  savedSearchId : ℕ
  reason : String
  emailSentAt : Option ℤ
  inAppSentAt : Option ℤ
  pushSentAt : Option ℤ
  job : AlertJobInfo
deriving Repr, DecidableEq

structure SavedSearch where
  id : ℕ
  userId : String
  label : String
  digestCadence : String
  digestHour : ℕ
  lastDigestAt : Option ℤ
  emailEnabled : Bool
  inAppEnabled : Bool
  pushEnabled : Bool
  pushDeferred : Bool
  userEmail : String
deriving Repr, DecidableEq

structure AlertDeliveryLogRow where
  userId : String
  alertId : Option ℕ
  savedSearchId : ℕ
  channel : String
  kind : String
  provider : String
  providerMessageId : Option String
  accepted : Bool
  recipient : String
  subject : String
  payload : String
  deliveredAtMs : ℤ
deriving Repr, DecidableEq

structure AlertStore where
  searches : List SavedSearch
  alerts : List JobAlert
  logs : List AlertDeliveryLogRow
deriving Repr, DecidableEq

structure SendResult where
  accepted : Bool
  provider : String
  providerMessageId : Option String
  sendError : Option String
deriving Repr, DecidableEq

/-- The run clock: epoch milliseconds plus the local hour (`getHours`). -/
structure NowT where
  ms : ℤ
  hour : ℕ
deriving Repr, DecidableEq

/-- `normalizeCadence`. -/
def normalizeCadence (value : String) : String :=
  if value == "instant" || value == "weekly" then value else "daily"

/-- `cadenceIntervalHours` (a non-instant cadence is weekly or daily). -/
def cadenceIntervalHours (cadence : String) : ℕ :=
  if cadence == "weekly" then 7 * 24 else 24

/-- `isDigestDue`: local hour reached and, when a digest was sent before, at
least the cadence interval elapsed (`elapsedHours >= interval` compared over
exact arithmetic in milliseconds). -/
def isDigestDue (cadence : String) (digestHour : ℕ) (lastDigestAt : Option ℤ)
    (now : NowT) : Bool :=
  if now.hour < digestHour then false
  else
    match lastDigestAt with
    | none => true
    | some t => decide ((cadenceIntervalHours cadence : ℤ) * 3600000 ≤ now.ms - t)

def subjectForInstant (title company : String) : String :=
  "New Faypath match: " ++ title ++ " at " ++ company

def payloadForInstant (job : AlertJobInfo) (reason : String) : String :=
  String.intercalate "\n"
    ["Role: " ++ job.title, "Company: " ++ job.company,
      "Location: " ++ job.location, "Salary: " ++ job.salary,
      "Merit fit: " ++ toString job.meritFit, "Reason: " ++ reason]

def subjectForDigest (label cadence : String) (count : ℕ) : String :=
  (if cadence == "weekly" then "Weekly" else "Daily") ++ " Faypath digest: " ++
    label ++ " (" ++ toString count ++ " new matches)"

def payloadForDigest (label cadence : String) (alerts : List JobAlert) : String :=
  String.intercalate "\n"
    (((if cadence == "weekly" then "WEEKLY" else "DAILY") ++ " DIGEST") ::
      ("Saved search: " ++ label) :: "" ::
      (alerts.map fun alert =>
        [alert.job.title ++ " | " ++ alert.job.company ++ " | " ++
            alert.job.location ++ " | " ++ alert.job.salary ++ " | fit " ++
            toString alert.job.meritFit,
          "Reason: " ++ alert.reason, ""]).flatten)

def pushBodyForAlert (alert : JobAlert) (searchLabel : String) : String :=
  String.intercalate " | "
    [alert.job.title, alert.job.company, alert.job.location, alert.job.salary,
      "Fit " ++ toString alert.job.meritFit, "Search: " ++ searchLabel]

def pushDigestBody (searchLabel : String) (alerts : List JobAlert)
    (cadence : String) : String :=
  let top := (alerts.take 3).map fun alert =>
    alert.job.title ++ " (" ++ alert.job.company ++ ")"
  (if cadence == "weekly" then "Weekly digest"
    else if cadence == "daily" then "Daily digest" else "Queued digest") ++
    " for " ++ searchLabel ++ ": " ++ toString alerts.length ++ " new matches" ++
    (if top.isEmpty then "" else " | " ++ String.intercalate ", " top)

/-- The alerts of one search that are unsent on some channel (the `alerts`
sub-query of `fetchPendingSearches`). -/
def pendingAlertsOf (st : AlertStore) (s : SavedSearch) : List JobAlert :=
  st.alerts.filter fun a =>
    a.savedSearchId == s.id &&
    (a.emailSentAt.isNone || a.inAppSentAt.isNone || a.pushSentAt.isNone)

/-- `fetchPendingSearches`: searches with any channel enabled (optionally
scoped to one user), each with its alerts that are unsent on some channel. -/
def fetchPendingSearches (st : AlertStore) (uid : Option String) :
    List (SavedSearch × List JobAlert) :=
  (st.searches.filter fun s =>
    (match uid with
      | some u => s.userId == u
      | none => true) &&
    (s.emailEnabled || s.inAppEnabled || s.pushEnabled)).map fun s =>
    (s, pendingAlertsOf st s)

structure ChannelCounts where
  emailAlerts : List JobAlert
  inAppAlerts : List JobAlert
  pushAlerts : List JobAlert
  pendingUniqueCount : ℕ
deriving Repr, DecidableEq

/-- `channelPendingCounts`: per-channel pending alerts of one search and the
number of distinct pending alert ids. -/
def channelPendingCounts (s : SavedSearch) (alerts : List JobAlert) : ChannelCounts :=
  let emailAlerts :=
    if s.emailEnabled then alerts.filter fun a => a.emailSentAt.isNone else []
  let inAppAlerts :=
    if s.inAppEnabled then alerts.filter fun a => a.inAppSentAt.isNone else []
  let pushAlerts :=
    if s.pushEnabled then alerts.filter fun a => a.pushSentAt.isNone else []
  { emailAlerts := emailAlerts
    inAppAlerts := inAppAlerts
    pushAlerts := pushAlerts
    pendingUniqueCount :=
      ((emailAlerts.map fun a => a.id) ++ (inAppAlerts.map fun a => a.id) ++
        (pushAlerts.map fun a => a.id)).dedup.length }

structure AlertDeliveryPreview where
  pendingAlerts : ℕ
  pendingEmailAlerts : ℕ
  pendingInAppAlerts : ℕ
  pendingPushAlerts : ℕ
  pendingInstantAlerts : ℕ
  dueDigestSearches : ℕ
  waitingDigestSearches : ℕ
deriving Repr, DecidableEq

/-- One iteration of the preview loop. -/
def previewStep (now : NowT) (acc : AlertDeliveryPreview)
    (entry : SavedSearch × List JobAlert) : AlertDeliveryPreview :=
  let cc := channelPendingCounts entry.1 entry.2
  if cc.pendingUniqueCount = 0 then acc
  else
    let cadence := normalizeCadence entry.1.digestCadence
    { pendingAlerts := acc.pendingAlerts + cc.pendingUniqueCount
      pendingEmailAlerts := acc.pendingEmailAlerts + cc.emailAlerts.length
      pendingInAppAlerts := acc.pendingInAppAlerts + cc.inAppAlerts.length
      pendingPushAlerts := acc.pendingPushAlerts + cc.pushAlerts.length
      pendingInstantAlerts := acc.pendingInstantAlerts +
        (if cadence == "instant" then cc.pendingUniqueCount else 0)
      dueDigestSearches := acc.dueDigestSearches +
        (if cadence != "instant" &&
            isDigestDue cadence entry.1.digestHour entry.1.lastDigestAt now then 1
          else 0)
      waitingDigestSearches := acc.waitingDigestSearches +
        (if cadence != "instant" &&
            !isDigestDue cadence entry.1.digestHour entry.1.lastDigestAt now then 1
          else 0) }

/-- `getAlertDeliveryPreview` (read-only). -/
def getAlertDeliveryPreview (st : AlertStore) (uid : Option String) (now : NowT) :
    AlertDeliveryPreview :=
  (fetchPendingSearches st uid).foldl (previewStep now) ⟨0, 0, 0, 0, 0, 0, 0⟩

/-- Ghost record of one delivery attempt: which alerts the attempt covered on
which channel and whether the provider accepted it.  The in-app channel has
no external provider and is always accepted. -/
structure DeliveryAttempt where
  searchId : ℕ
  channel : String
  kind : String
  accepted : Bool
  alertIds : List ℕ
deriving Repr, DecidableEq

/-- The evolving state of one delivery run: the store, the provider call
counters, the ghost attempt trace, and the summary counters returned by the
job. -/
structure RunState where
  store : AlertStore
  emailCalls : ℕ
  pushCalls : ℕ
  attempts : List DeliveryAttempt
  searchesScanned : ℕ
  attemptedDeliveries : ℕ
  alertsDelivered : ℕ
  instantAlertsDelivered : ℕ
  digestAlertsDelivered : ℕ
  failedDeliveries : ℕ
  digestRuns : ℕ
  logsCreated : ℕ
  waitingDigestSearches : ℕ
  emailChannelDelivered : ℕ
  inAppChannelDelivered : ℕ
  pushChannelDelivered : ℕ
deriving Repr, DecidableEq

def markEmailSent (st : AlertStore) (ids : List ℕ) (t : ℤ) : AlertStore :=
  { st with alerts := st.alerts.map fun a =>
      if ids.contains a.id then { a with emailSentAt := some t } else a }

def markInAppSent (st : AlertStore) (ids : List ℕ) (t : ℤ) : AlertStore :=
  { st with alerts := st.alerts.map fun a =>
      if ids.contains a.id then { a with inAppSentAt := some t } else a }

def markPushSent (st : AlertStore) (ids : List ℕ) (t : ℤ) : AlertStore :=
  { st with alerts := st.alerts.map fun a =>
      if ids.contains a.id then { a with pushSentAt := some t } else a }

def appendLog (st : AlertStore) (row : AlertDeliveryLogRow) : AlertStore :=
  { st with logs := st.logs ++ [row] }

def setLastDigestAt (st : AlertStore) (sid : ℕ) (t : ℤ) : AlertStore :=
  { st with searches := st.searches.map fun s =>
      if s.id == sid then { s with lastDigestAt := some t } else s }

/-- One iteration of the instant email loop: provider call, log row, and a
conditional sent-mark for a single alert. -/
def emailIterState (emailOracle : ℕ → SendResult) (s : SavedSearch) (now : NowT)
    (alert : JobAlert) (rs : RunState) : RunState :=
  let result := emailOracle rs.emailCalls
  let rs1 := { rs with
    emailCalls := rs.emailCalls + 1
    attemptedDeliveries := rs.attemptedDeliveries + 1
    store := appendLog rs.store
      { userId := s.userId, alertId := some alert.id, savedSearchId := s.id,
        channel := "email", kind := "instant", provider := result.provider,
        providerMessageId := result.providerMessageId,
        accepted := result.accepted, recipient := s.userEmail,
        subject := subjectForInstant alert.job.title alert.job.company,
        payload := payloadForInstant alert.job alert.reason,
        deliveredAtMs := now.ms }
    logsCreated := rs.logsCreated + 1
    attempts := rs.attempts ++
      [({ searchId := s.id, channel := "email", kind := "instant",
          accepted := result.accepted, alertIds := [alert.id] } : DeliveryAttempt)] }
  if result.accepted then
    { rs1 with
      store := markEmailSent rs1.store [alert.id] now.ms
      alertsDelivered := rs1.alertsDelivered + 1
      instantAlertsDelivered := rs1.instantAlertsDelivered + 1
      emailChannelDelivered := rs1.emailChannelDelivered + 1 }
  else { rs1 with failedDeliveries := rs1.failedDeliveries + 1 }

/-- The per-alert loop for instant email delivery. -/
def instantEmailLoop (emailOracle : ℕ → SendResult) (s : SavedSearch) (now : NowT) :
    List JobAlert → RunState → RunState
  | [], rs => rs
  | alert :: rest, rs =>
    instantEmailLoop emailOracle s now rest (emailIterState emailOracle s now alert rs)

/-- `createInternalDeliveryLogs`: one accepted in-app log row per alert,
written in a single batch. -/
def createInternalDeliveryLogs (s : SavedSearch) (alerts : List JobAlert)
    (now : NowT) (kind subject payload : String) (st : AlertStore) :
    AlertStore × ℕ :=
  let rows := alerts.map fun alert =>
    { userId := s.userId, alertId := some alert.id, savedSearchId := s.id,
      channel := "in_app", kind := kind, provider := "in_app",
      providerMessageId := none, accepted := true,
      recipient := "user:" ++ s.userId, subject := subject, payload := payload,
      deliveredAtMs := now.ms : AlertDeliveryLogRow }
  if rows.length = 0 then (st, 0)
  else ({ st with logs := st.logs ++ rows }, rows.length)

/-- `deliverPushDigest`: one provider call for the whole batch; all alerts
are marked sent only when the provider accepts.  (The caller has already
counted the attempt.) -/
def deliverPushDigest (pushOracle : ℕ → SendResult) (s : SavedSearch)
    (alerts : List JobAlert) (now : NowT) (cadence : String) (rs : RunState) :
    RunState :=
  if alerts.isEmpty then rs
  else
    let result := pushOracle rs.pushCalls
    let st1 := appendLog rs.store
      { userId := s.userId, alertId := none, savedSearchId := s.id,
        channel := "push", kind := "digest", provider := result.provider,
        providerMessageId := result.providerMessageId,
        accepted := result.accepted, recipient := s.userEmail,
        subject := "Faypath " ++ (if cadence == "weekly" then "weekly" else "daily") ++
          " push digest",
        payload := pushDigestBody s.label alerts cadence, deliveredAtMs := now.ms }
    { rs with
      store :=
        if result.accepted then
          markPushSent st1 (alerts.map fun a => a.id) now.ms
        else st1
      pushCalls := rs.pushCalls + 1
      logsCreated := rs.logsCreated + 1
      attempts := rs.attempts ++
        [({ searchId := s.id, channel := "push", kind := "digest",
            accepted := result.accepted, alertIds := alerts.map fun a => a.id } : DeliveryAttempt)]
      failedDeliveries := rs.failedDeliveries + (if result.accepted then 0 else 1)
      pushChannelDelivered :=
        rs.pushChannelDelivered + (if result.accepted then alerts.length else 0)
      alertsDelivered :=
        rs.alertsDelivered + (if result.accepted then alerts.length else 0)
      digestAlertsDelivered :=
        rs.digestAlertsDelivered + (if result.accepted then alerts.length else 0) }

/-- One iteration of the per-alert instant push loop. -/
def pushIterState (pushOracle : ℕ → SendResult) (s : SavedSearch) (now : NowT)
    (alert : JobAlert) (rs : RunState) : RunState :=
  let result := pushOracle rs.pushCalls
  let rs1 := { rs with
    pushCalls := rs.pushCalls + 1
    store := appendLog rs.store
      { userId := s.userId, alertId := some alert.id, savedSearchId := s.id,
        channel := "push", kind := "instant", provider := result.provider,
        providerMessageId := result.providerMessageId,
        accepted := result.accepted, recipient := s.userEmail,
        subject := "Faypath match: " ++ alert.job.title,
        payload := pushBodyForAlert alert s.label, deliveredAtMs := now.ms }
    logsCreated := rs.logsCreated + 1
    attempts := rs.attempts ++
      [({ searchId := s.id, channel := "push", kind := "instant",
          accepted := result.accepted, alertIds := [alert.id] } : DeliveryAttempt)] }
  if result.accepted then
    { rs1 with
      store := markPushSent rs1.store [alert.id] now.ms
      alertsDelivered := rs1.alertsDelivered + 1
      instantAlertsDelivered := rs1.instantAlertsDelivered + 1
      pushChannelDelivered := rs1.pushChannelDelivered + 1 }
  else { rs1 with failedDeliveries := rs1.failedDeliveries + 1 }

/-- `deliverPushInstantPerAlert`: one provider call, log row and conditional
mark per pending push alert. -/
def pushInstantLoop (pushOracle : ℕ → SendResult) (s : SavedSearch) (now : NowT) :
    List JobAlert → RunState → RunState
  | [], rs => rs
  | alert :: rest, rs =>
    pushInstantLoop pushOracle s now rest (pushIterState pushOracle s now alert rs)

/-- The email branch of a due digest: one provider call for the whole batch. -/
def digestEmailStep (emailOracle : ℕ → SendResult) (s : SavedSearch)
    (cadence : String) (emailAlerts : List JobAlert) (now : NowT)
    (rs : RunState) : RunState :=
  let result := emailOracle rs.emailCalls
  let rs1 := { rs with
    emailCalls := rs.emailCalls + 1
    attemptedDeliveries := rs.attemptedDeliveries + 1
    store := appendLog rs.store
      { userId := s.userId, alertId := none, savedSearchId := s.id,
        channel := "email", kind := "digest", provider := result.provider,
        providerMessageId := result.providerMessageId,
        accepted := result.accepted, recipient := s.userEmail,
        subject := subjectForDigest s.label cadence emailAlerts.length,
        payload := payloadForDigest s.label cadence emailAlerts,
        deliveredAtMs := now.ms }
    logsCreated := rs.logsCreated + 1
    attempts := rs.attempts ++
      [({ searchId := s.id, channel := "email", kind := "digest",
          accepted := result.accepted,
          alertIds := emailAlerts.map fun (a : JobAlert) => a.id } : DeliveryAttempt)] }
  if result.accepted then
    { rs1 with
      store := markEmailSent rs1.store (emailAlerts.map fun (a : JobAlert) => a.id) now.ms
      alertsDelivered := rs1.alertsDelivered + emailAlerts.length
      digestAlertsDelivered := rs1.digestAlertsDelivered + emailAlerts.length
      emailChannelDelivered := rs1.emailChannelDelivered + emailAlerts.length
      digestRuns := rs1.digestRuns + 1 }
  else { rs1 with failedDeliveries := rs1.failedDeliveries + 1 }

/-- The in-app batch of an instant search: always delivered, one log row per
alert. -/
def instantInAppStep (s : SavedSearch) (inAppAlerts : List JobAlert) (now : NowT)
    (rs : RunState) : RunState :=
  let created := createInternalDeliveryLogs s inAppAlerts now "instant"
    ("In-app match alerts: " ++ s.label)
    ("Delivered " ++ toString inAppAlerts.length ++ " instant in-app alerts.")
    rs.store
  { rs with
    store := markInAppSent created.1 (inAppAlerts.map fun a => a.id) now.ms
    attemptedDeliveries := rs.attemptedDeliveries + inAppAlerts.length
    logsCreated := rs.logsCreated + created.2
    inAppChannelDelivered := rs.inAppChannelDelivered + inAppAlerts.length
    alertsDelivered := rs.alertsDelivered + inAppAlerts.length
    instantAlertsDelivered := rs.instantAlertsDelivered + inAppAlerts.length
    attempts := rs.attempts ++
      [({ searchId := s.id, channel := "in_app", kind := "instant",
          accepted := true, alertIds := inAppAlerts.map fun a => a.id } : DeliveryAttempt)] }

/-- The in-app batch of a due digest: always delivered, one attempt counted,
one log row per alert. -/
def digestInAppStep (s : SavedSearch) (cadence : String)
    (inAppAlerts : List JobAlert) (now : NowT) (rs : RunState) : RunState :=
  let created := createInternalDeliveryLogs s inAppAlerts now "digest"
    ("In-app digest: " ++ s.label) (payloadForDigest s.label cadence inAppAlerts)
    rs.store
  { rs with
    store := markInAppSent created.1 (inAppAlerts.map fun a => a.id) now.ms
    attemptedDeliveries := rs.attemptedDeliveries + 1
    logsCreated := rs.logsCreated + created.2
    inAppChannelDelivered := rs.inAppChannelDelivered + inAppAlerts.length
    alertsDelivered := rs.alertsDelivered + inAppAlerts.length
    digestAlertsDelivered := rs.digestAlertsDelivered + inAppAlerts.length
    attempts := rs.attempts ++
      [({ searchId := s.id, channel := "in_app", kind := "digest",
          accepted := true, alertIds := inAppAlerts.map fun a => a.id } : DeliveryAttempt)] }

/-- Processing of one saved search inside the run loop. -/
def processSearch (emailOracle pushOracle : ℕ → SendResult) (now : NowT)
    (rs : RunState) (entry : SavedSearch × List JobAlert) : RunState :=
  let s := entry.1
  let rs0 := { rs with searchesScanned := rs.searchesScanned + 1 }
  let cc := channelPendingCounts s entry.2
  if cc.pendingUniqueCount = 0 then rs0
  else
    let cadence := normalizeCadence s.digestCadence
    let isInstant := cadence == "instant"
    let isDueDigest :=
      !isInstant && isDigestDue cadence s.digestHour s.lastDigestAt now
    if !isInstant && !isDueDigest then
      { rs0 with waitingDigestSearches := rs0.waitingDigestSearches + 1 }
    else if isInstant then
      let rs1 := instantEmailLoop emailOracle s now cc.emailAlerts rs0
      let rs2 :=
        if cc.inAppAlerts.isEmpty then rs1
        else instantInAppStep s cc.inAppAlerts now rs1
      if cc.pushAlerts.isEmpty then rs2
      else if s.pushDeferred then
        deliverPushDigest pushOracle s cc.pushAlerts now "instant"
          { rs2 with attemptedDeliveries := rs2.attemptedDeliveries + 1 }
      else
        pushInstantLoop pushOracle s now cc.pushAlerts
          { rs2 with
            attemptedDeliveries := rs2.attemptedDeliveries + cc.pushAlerts.length }
    else
      let rs1 :=
        if cc.emailAlerts.isEmpty then rs0
        else digestEmailStep emailOracle s cadence cc.emailAlerts now rs0
      let rs2 :=
        if cc.inAppAlerts.isEmpty then rs1
        else digestInAppStep s cadence cc.inAppAlerts now rs1
      let rs3 :=
        if cc.pushAlerts.isEmpty then rs2
        else deliverPushDigest pushOracle s cc.pushAlerts now cadence
          { rs2 with attemptedDeliveries := rs2.attemptedDeliveries + 1 }
      { rs3 with store := setLastDigestAt rs3.store s.id now.ms }

/-- The initial state of a run over store `st`. -/
def initialRunState (st : AlertStore) : RunState :=
  { store := st, emailCalls := 0, pushCalls := 0, attempts := [],
    searchesScanned := 0, attemptedDeliveries := 0, alertsDelivered := 0,
    instantAlertsDelivered := 0, digestAlertsDelivered := 0,
    failedDeliveries := 0, digestRuns := 0, logsCreated := 0,
    waitingDigestSearches := 0, emailChannelDelivered := 0,
    inAppChannelDelivered := 0, pushChannelDelivered := 0 }

/-- `runAlertDeliveryJob`: the delivery job over the fetched snapshot; the
returned `RunState` carries the final store, the summary counters and the
ghost attempt trace. -/
def runAlertDeliveryJob (st : AlertStore) (uid : Option String)
    (emailOracle pushOracle : ℕ → SendResult) (now : NowT) : RunState :=
  (fetchPendingSearches st uid).foldl (processSearch emailOracle pushOracle now)
    (initialRunState st)

/-! ### Delivery-run correctness machinery -/

/-- An alert id is covered by an accepted attempt on a channel. -/
def coveredAccepted (atts : List DeliveryAttempt) (c : String) (id : ℕ) : Bool :=
  atts.any fun t => t.channel == c && t.accepted && t.alertIds.contains id

/-- The cumulative effect of a run's attempts on one alert row: each channel's
sent timestamp becomes the run time iff some accepted attempt covered it. -/
def markByAttempts (atts : List DeliveryAttempt) (ms : ℤ) (a : JobAlert) : JobAlert :=
  { a with
    emailSentAt := if coveredAccepted atts "email" a.id then some ms else a.emailSentAt
    inAppSentAt := if coveredAccepted atts "in_app" a.id then some ms else a.inAppSentAt
    pushSentAt := if coveredAccepted atts "push" a.id then some ms else a.pushSentAt }

/-- The sent timestamp of a channel. -/
def sentAtChannel (c : String) (a : JobAlert) : Option ℤ :=
  if c == "email" then a.emailSentAt
  else if c == "in_app" then a.inAppSentAt
  else a.pushSentAt

/-- Whether a channel is enabled on a saved search. -/
def channelEnabled (c : String) (s : SavedSearch) : Bool :=
  if c == "email" then s.emailEnabled
  else if c == "in_app" then s.inAppEnabled
  else s.pushEnabled

theorem markByAttempts_nil (ms : ℤ) (a : JobAlert) : markByAttempts [] ms a = a := by
  simp [markByAttempts, coveredAccepted]

theorem markByAttempts_id (atts : List DeliveryAttempt) (ms : ℤ) (a : JobAlert) :
    (markByAttempts atts ms a).id = a.id := rfl

theorem coveredAccepted_append_one (atts : List DeliveryAttempt)
    (t0 : DeliveryAttempt) (c : String) (id : ℕ) :
    coveredAccepted (atts ++ [t0]) c id =
      (coveredAccepted atts c id ||
        (t0.channel == c && t0.accepted && t0.alertIds.contains id)) := by
  simp [coveredAccepted, List.any_append]

theorem coveredAccepted_append_rejected (atts : List DeliveryAttempt)
    (t0 : DeliveryAttempt) (c : String) (id : ℕ) (h : t0.accepted = false) :
    coveredAccepted (atts ++ [t0]) c id = coveredAccepted atts c id := by
  rw [coveredAccepted_append_one, h]
  simp

theorem coveredAccepted_append_other (atts : List DeliveryAttempt)
    (t0 : DeliveryAttempt) (c : String) (id : ℕ) (h : (t0.channel == c) = false) :
    coveredAccepted (atts ++ [t0]) c id = coveredAccepted atts c id := by
  rw [coveredAccepted_append_one, h]
  simp

theorem markByAttempts_append_rejected (atts : List DeliveryAttempt)
    (t0 : DeliveryAttempt) (ms : ℤ) (a : JobAlert) (h : t0.accepted = false) :
    markByAttempts (atts ++ [t0]) ms a = markByAttempts atts ms a := by
  unfold markByAttempts
  rw [coveredAccepted_append_rejected _ _ _ _ h,
    coveredAccepted_append_rejected _ _ _ _ h,
    coveredAccepted_append_rejected _ _ _ _ h]

theorem markByAttempts_append_email (atts : List DeliveryAttempt) (ms : ℤ)
    (a : JobAlert) (sid : ℕ) (kd : String) (ids : List ℕ) :
    markByAttempts (atts ++ [⟨sid, "email", kd, true, ids⟩]) ms a =
      (if ids.contains (markByAttempts atts ms a).id then
        { markByAttempts atts ms a with emailSentAt := some ms }
      else markByAttempts atts ms a) := by
  have hia : (("email" : String) == "in_app") = false := by decide
  have hpu : (("email" : String) == "push") = false := by decide
  unfold markByAttempts
  rw [coveredAccepted_append_other atts _ "in_app" a.id hia,
    coveredAccepted_append_other atts _ "push" a.id hpu,
    coveredAccepted_append_one]
  by_cases hc : a.id ∈ ids
  · have hcb : ids.contains a.id = true := List.elem_iff.mpr hc
    simp [hcb, hc]
  · have hcb : ids.contains a.id = false :=
      Bool.eq_false_iff.mpr fun hb => hc (List.elem_iff.mp hb)
    simp [hcb, hc]

theorem markByAttempts_append_inApp (atts : List DeliveryAttempt) (ms : ℤ)
    (a : JobAlert) (sid : ℕ) (kd : String) (ids : List ℕ) :
    markByAttempts (atts ++ [⟨sid, "in_app", kd, true, ids⟩]) ms a =
      (if ids.contains (markByAttempts atts ms a).id then
        { markByAttempts atts ms a with inAppSentAt := some ms }
      else markByAttempts atts ms a) := by
  have hem : (("in_app" : String) == "email") = false := by decide
  have hpu : (("in_app" : String) == "push") = false := by decide
  unfold markByAttempts
  rw [coveredAccepted_append_other atts _ "email" a.id hem,
    coveredAccepted_append_other atts _ "push" a.id hpu,
    coveredAccepted_append_one]
  by_cases hc : a.id ∈ ids
  · have hcb : ids.contains a.id = true := List.elem_iff.mpr hc
    simp [hcb, hc]
  · have hcb : ids.contains a.id = false :=
      Bool.eq_false_iff.mpr fun hb => hc (List.elem_iff.mp hb)
    simp [hcb, hc]

theorem markByAttempts_append_push (atts : List DeliveryAttempt) (ms : ℤ)
    (a : JobAlert) (sid : ℕ) (kd : String) (ids : List ℕ) :
    markByAttempts (atts ++ [⟨sid, "push", kd, true, ids⟩]) ms a =
      (if ids.contains (markByAttempts atts ms a).id then
        { markByAttempts atts ms a with pushSentAt := some ms }
      else markByAttempts atts ms a) := by
  have hem : (("push" : String) == "email") = false := by decide
  have hia : (("push" : String) == "in_app") = false := by decide
  unfold markByAttempts
  rw [coveredAccepted_append_other atts _ "email" a.id hem,
    coveredAccepted_append_other atts _ "in_app" a.id hia,
    coveredAccepted_append_one]
  by_cases hc : a.id ∈ ids
  · have hcb : ids.contains a.id = true := List.elem_iff.mpr hc
    simp [hcb, hc]
  · have hcb : ids.contains a.id = false :=
      Bool.eq_false_iff.mpr fun hb => hc (List.elem_iff.mp hb)
    simp [hcb, hc]

theorem appendLog_alerts (st : AlertStore) (row : AlertDeliveryLogRow) :
    (appendLog st row).alerts = st.alerts := rfl

theorem setLastDigestAt_alerts (st : AlertStore) (sid : ℕ) (t : ℤ) :
    (setLastDigestAt st sid t).alerts = st.alerts := rfl

theorem map_markByAttempts_append_rejected (l : List JobAlert)
    (atts : List DeliveryAttempt) (t0 : DeliveryAttempt) (ms : ℤ)
    (h : t0.accepted = false) :
    l.map (markByAttempts (atts ++ [t0]) ms) = l.map (markByAttempts atts ms) := by
  have hfun : markByAttempts (atts ++ [t0]) ms = markByAttempts atts ms :=
    funext fun a => markByAttempts_append_rejected atts t0 ms a h
  rw [hfun]

theorem markEmailSent_map (st0 st1 : AlertStore) (atts : List DeliveryAttempt)
    (ms : ℤ) (ids : List ℕ) (sid : ℕ) (kd : String)
    (h : st1.alerts = st0.alerts.map (markByAttempts atts ms)) :
    (markEmailSent st1 ids ms).alerts =
      st0.alerts.map
        (markByAttempts (atts ++ [⟨sid, "email", kd, true, ids⟩]) ms) := by
  have hfun : markByAttempts (atts ++ [⟨sid, "email", kd, true, ids⟩]) ms =
      (fun a => if ids.contains a.id then { a with emailSentAt := some ms } else a) ∘
        markByAttempts atts ms :=
    funext fun a => by
      rw [markByAttempts_append_email]
      rfl
  unfold markEmailSent
  rw [h, List.map_map, hfun]

theorem markInAppSent_map (st0 st1 : AlertStore) (atts : List DeliveryAttempt)
    (ms : ℤ) (ids : List ℕ) (sid : ℕ) (kd : String)
    (h : st1.alerts = st0.alerts.map (markByAttempts atts ms)) :
    (markInAppSent st1 ids ms).alerts =
      st0.alerts.map
        (markByAttempts (atts ++ [⟨sid, "in_app", kd, true, ids⟩]) ms) := by
  have hfun : markByAttempts (atts ++ [⟨sid, "in_app", kd, true, ids⟩]) ms =
      (fun a => if ids.contains a.id then { a with inAppSentAt := some ms } else a) ∘
        markByAttempts atts ms :=
    funext fun a => by
      rw [markByAttempts_append_inApp]
      rfl
  unfold markInAppSent
  rw [h, List.map_map, hfun]

theorem markPushSent_map (st0 st1 : AlertStore) (atts : List DeliveryAttempt)
    (ms : ℤ) (ids : List ℕ) (sid : ℕ) (kd : String)
    (h : st1.alerts = st0.alerts.map (markByAttempts atts ms)) :
    (markPushSent st1 ids ms).alerts =
      st0.alerts.map
        (markByAttempts (atts ++ [⟨sid, "push", kd, true, ids⟩]) ms) := by
  have hfun : markByAttempts (atts ++ [⟨sid, "push", kd, true, ids⟩]) ms =
      (fun a => if ids.contains a.id then { a with pushSentAt := some ms } else a) ∘
        markByAttempts atts ms :=
    funext fun a => by
      rw [markByAttempts_append_push]
      rfl
  unfold markPushSent
  rw [h, List.map_map, hfun]

/-- The per-channel pending alerts of a fetched entry. -/
def pendingOn (c : String) (entry : SavedSearch × List JobAlert) : List JobAlert :=
  if channelEnabled c entry.1 then
    entry.2.filter fun a => (sentAtChannel c a).isNone
  else []

/-- An attempt is well-formed for a fetched entry: it names that search and
covers only alerts pending on its channel. -/
def goodAttempt (entry : SavedSearch × List JobAlert) (t : DeliveryAttempt) : Prop :=
  t.searchId = entry.1.id ∧
  ∀ id ∈ t.alertIds, ∃ a ∈ pendingOn t.channel entry, a.id = id

theorem channelPendingCounts_email (s : SavedSearch) (alerts : List JobAlert) :
    (channelPendingCounts s alerts).emailAlerts = pendingOn "email" (s, alerts) := by
  simp [channelPendingCounts, pendingOn, channelEnabled, sentAtChannel]

theorem channelPendingCounts_inApp (s : SavedSearch) (alerts : List JobAlert) :
    (channelPendingCounts s alerts).inAppAlerts = pendingOn "in_app" (s, alerts) := by
  simp [channelPendingCounts, pendingOn, channelEnabled, sentAtChannel]

theorem channelPendingCounts_push (s : SavedSearch) (alerts : List JobAlert) :
    (channelPendingCounts s alerts).pushAlerts = pendingOn "push" (s, alerts) := by
  simp [channelPendingCounts, pendingOn, channelEnabled, sentAtChannel]

theorem createInternalDeliveryLogs_alerts (s : SavedSearch)
    (alerts : List JobAlert) (now : NowT) (kind subject payload : String)
    (st : AlertStore) :
    (createInternalDeliveryLogs s alerts now kind subject payload st).1.alerts =
      st.alerts := by
  unfold createInternalDeliveryLogs
  dsimp only
  split <;> rfl

theorem emailIterState_attempts (e : ℕ → SendResult) (s : SavedSearch)
    (now : NowT) (alert : JobAlert) (rs : RunState) :
    (emailIterState e s now alert rs).attempts =
      rs.attempts ++
        [⟨s.id, "email", "instant", (e rs.emailCalls).accepted, [alert.id]⟩] := by
  unfold emailIterState
  dsimp only
  split <;> rfl

theorem emailIterState_alerts (st0 : AlertStore) (e : ℕ → SendResult)
    (s : SavedSearch) (now : NowT) (alert : JobAlert) (rs : RunState)
    (h : rs.store.alerts = st0.alerts.map (markByAttempts rs.attempts now.ms)) :
    (emailIterState e s now alert rs).store.alerts =
      st0.alerts.map
        (markByAttempts (emailIterState e s now alert rs).attempts now.ms) := by
  rw [emailIterState_attempts]
  unfold emailIterState
  dsimp only
  by_cases hacc : (e rs.emailCalls).accepted = true
  · rw [if_pos hacc, hacc]
    exact markEmailSent_map st0 _ rs.attempts now.ms [alert.id] s.id "instant" h
  · rw [if_neg hacc]
    have hacc' : (e rs.emailCalls).accepted = false := Bool.eq_false_iff.mpr hacc
    rw [map_markByAttempts_append_rejected _ _ _ _ hacc']
    exact h

theorem pushIterState_attempts (p : ℕ → SendResult) (s : SavedSearch)
    (now : NowT) (alert : JobAlert) (rs : RunState) :
    (pushIterState p s now alert rs).attempts =
      rs.attempts ++
        [⟨s.id, "push", "instant", (p rs.pushCalls).accepted, [alert.id]⟩] := by
  unfold pushIterState
  dsimp only
  split <;> rfl

theorem pushIterState_alerts (st0 : AlertStore) (p : ℕ → SendResult)
    (s : SavedSearch) (now : NowT) (alert : JobAlert) (rs : RunState)
    (h : rs.store.alerts = st0.alerts.map (markByAttempts rs.attempts now.ms)) :
    (pushIterState p s now alert rs).store.alerts =
      st0.alerts.map
        (markByAttempts (pushIterState p s now alert rs).attempts now.ms) := by
  rw [pushIterState_attempts]
  unfold pushIterState
  dsimp only
  by_cases hacc : (p rs.pushCalls).accepted = true
  · rw [if_pos hacc, hacc]
    exact markPushSent_map st0 _ rs.attempts now.ms [alert.id] s.id "instant" h
  · rw [if_neg hacc]
    have hacc' : (p rs.pushCalls).accepted = false := Bool.eq_false_iff.mpr hacc
    rw [map_markByAttempts_append_rejected _ _ _ _ hacc']
    exact h

theorem instantEmailLoop_spec (st0 : AlertStore) (e : ℕ → SendResult)
    (s : SavedSearch) (now : NowT) :
    ∀ (alerts : List JobAlert) (rs : RunState),
      rs.store.alerts = st0.alerts.map (markByAttempts rs.attempts now.ms) →
      ((instantEmailLoop e s now alerts rs).store.alerts =
          st0.alerts.map
            (markByAttempts (instantEmailLoop e s now alerts rs).attempts now.ms) ∧
        ∃ newAtts,
          (instantEmailLoop e s now alerts rs).attempts = rs.attempts ++ newAtts ∧
          ∀ t ∈ newAtts, t.searchId = s.id ∧ t.channel = "email" ∧
            ∃ a ∈ alerts, t.alertIds = [a.id])
  | [], rs, h => ⟨h, [], by simp [instantEmailLoop], by simp⟩
  | alert :: rest, rs, h => by
    rw [instantEmailLoop]
    obtain ⟨h1, newAtts, hatts, hprops⟩ :=
      instantEmailLoop_spec st0 e s now rest (emailIterState e s now alert rs)
        (emailIterState_alerts st0 e s now alert rs h)
    refine ⟨h1,
      ⟨s.id, "email", "instant", (e rs.emailCalls).accepted, [alert.id]⟩ :: newAtts,
      ?_, ?_⟩
    · rw [hatts, emailIterState_attempts]
      simp
    · intro t ht
      rcases List.mem_cons.mp ht with rfl | htm
      · exact ⟨rfl, rfl, alert, List.mem_cons_self _ _, rfl⟩
      · obtain ⟨h1', h2', a, ha, h4'⟩ := hprops t htm
        exact ⟨h1', h2', a, List.mem_cons_of_mem _ ha, h4'⟩

theorem pushInstantLoop_spec (st0 : AlertStore) (p : ℕ → SendResult)
    (s : SavedSearch) (now : NowT) :
    ∀ (alerts : List JobAlert) (rs : RunState),
      rs.store.alerts = st0.alerts.map (markByAttempts rs.attempts now.ms) →
      ((pushInstantLoop p s now alerts rs).store.alerts =
          st0.alerts.map
            (markByAttempts (pushInstantLoop p s now alerts rs).attempts now.ms) ∧
        ∃ newAtts,
          (pushInstantLoop p s now alerts rs).attempts = rs.attempts ++ newAtts ∧
          ∀ t ∈ newAtts, t.searchId = s.id ∧ t.channel = "push" ∧
            ∃ a ∈ alerts, t.alertIds = [a.id])
  | [], rs, h => ⟨h, [], by simp [pushInstantLoop], by simp⟩
  | alert :: rest, rs, h => by
    rw [pushInstantLoop]
    obtain ⟨h1, newAtts, hatts, hprops⟩ :=
      pushInstantLoop_spec st0 p s now rest (pushIterState p s now alert rs)
        (pushIterState_alerts st0 p s now alert rs h)
    refine ⟨h1,
      ⟨s.id, "push", "instant", (p rs.pushCalls).accepted, [alert.id]⟩ :: newAtts,
      ?_, ?_⟩
    · rw [hatts, pushIterState_attempts]
      simp
    · intro t ht
      rcases List.mem_cons.mp ht with rfl | htm
      · exact ⟨rfl, rfl, alert, List.mem_cons_self _ _, rfl⟩
      · obtain ⟨h1', h2', a, ha, h4'⟩ := hprops t htm
        exact ⟨h1', h2', a, List.mem_cons_of_mem _ ha, h4'⟩

theorem instantInAppStep_attempts (s : SavedSearch) (inAppAlerts : List JobAlert)
    (now : NowT) (rs : RunState) :
    (instantInAppStep s inAppAlerts now rs).attempts =
      rs.attempts ++
        [⟨s.id, "in_app", "instant", true, inAppAlerts.map fun a => a.id⟩] := rfl

theorem instantInAppStep_alerts (st0 : AlertStore) (s : SavedSearch)
    (inAppAlerts : List JobAlert) (now : NowT) (rs : RunState)
    (h : rs.store.alerts = st0.alerts.map (markByAttempts rs.attempts now.ms)) :
    (instantInAppStep s inAppAlerts now rs).store.alerts =
      st0.alerts.map
        (markByAttempts (instantInAppStep s inAppAlerts now rs).attempts now.ms) := by
  rw [instantInAppStep_attempts]
  show (markInAppSent _ _ _).alerts = _
  refine markInAppSent_map st0 _ rs.attempts now.ms _ s.id "instant" ?_
  rw [createInternalDeliveryLogs_alerts]
  exact h

theorem digestInAppStep_attempts (s : SavedSearch) (cadence : String)
    (inAppAlerts : List JobAlert) (now : NowT) (rs : RunState) :
    (digestInAppStep s cadence inAppAlerts now rs).attempts =
      rs.attempts ++
        [⟨s.id, "in_app", "digest", true, inAppAlerts.map fun a => a.id⟩] := rfl

theorem digestInAppStep_alerts (st0 : AlertStore) (s : SavedSearch)
    (cadence : String) (inAppAlerts : List JobAlert) (now : NowT) (rs : RunState)
    (h : rs.store.alerts = st0.alerts.map (markByAttempts rs.attempts now.ms)) :
    (digestInAppStep s cadence inAppAlerts now rs).store.alerts =
      st0.alerts.map
        (markByAttempts
          (digestInAppStep s cadence inAppAlerts now rs).attempts now.ms) := by
  rw [digestInAppStep_attempts]
  show (markInAppSent _ _ _).alerts = _
  refine markInAppSent_map st0 _ rs.attempts now.ms _ s.id "digest" ?_
  rw [createInternalDeliveryLogs_alerts]
  exact h

theorem digestEmailStep_attempts (e : ℕ → SendResult) (s : SavedSearch)
    (cadence : String) (emailAlerts : List JobAlert) (now : NowT) (rs : RunState) :
    (digestEmailStep e s cadence emailAlerts now rs).attempts =
      rs.attempts ++
        [⟨s.id, "email", "digest", (e rs.emailCalls).accepted,
          emailAlerts.map fun (a : JobAlert) => a.id⟩] := by
  unfold digestEmailStep
  dsimp only
  split <;> rfl

theorem digestEmailStep_alerts (st0 : AlertStore) (e : ℕ → SendResult)
    (s : SavedSearch) (cadence : String) (emailAlerts : List JobAlert)
    (now : NowT) (rs : RunState)
    (h : rs.store.alerts = st0.alerts.map (markByAttempts rs.attempts now.ms)) :
    (digestEmailStep e s cadence emailAlerts now rs).store.alerts =
      st0.alerts.map
        (markByAttempts
          (digestEmailStep e s cadence emailAlerts now rs).attempts now.ms) := by
  rw [digestEmailStep_attempts]
  unfold digestEmailStep
  dsimp only
  by_cases hacc : (e rs.emailCalls).accepted = true
  · rw [if_pos hacc, hacc]
    exact markEmailSent_map st0 _ rs.attempts now.ms _ s.id "digest" h
  · rw [if_neg hacc]
    have hacc' : (e rs.emailCalls).accepted = false := Bool.eq_false_iff.mpr hacc
    rw [map_markByAttempts_append_rejected _ _ _ _ hacc']
    exact h

theorem deliverPushDigest_attempts (p : ℕ → SendResult) (s : SavedSearch)
    (alerts : List JobAlert) (now : NowT) (cadence : String) (rs : RunState) :
    (deliverPushDigest p s alerts now cadence rs).attempts =
      (if alerts.isEmpty then rs.attempts
        else rs.attempts ++
          [⟨s.id, "push", "digest", (p rs.pushCalls).accepted,
            alerts.map fun a => a.id⟩]) := by
  unfold deliverPushDigest
  dsimp only
  split <;> rfl

theorem deliverPushDigest_alerts (st0 : AlertStore) (p : ℕ → SendResult)
    (s : SavedSearch) (alerts : List JobAlert) (now : NowT) (cadence : String)
    (rs : RunState)
    (h : rs.store.alerts = st0.alerts.map (markByAttempts rs.attempts now.ms)) :
    (deliverPushDigest p s alerts now cadence rs).store.alerts =
      st0.alerts.map
        (markByAttempts
          (deliverPushDigest p s alerts now cadence rs).attempts now.ms) := by
  rw [deliverPushDigest_attempts]
  unfold deliverPushDigest
  dsimp only
  by_cases hemp : alerts.isEmpty = true
  · rw [if_pos hemp, if_pos hemp]
    exact h
  · rw [if_neg hemp, if_neg hemp]
    by_cases hacc : (p rs.pushCalls).accepted = true
    · rw [if_pos hacc, hacc]
      exact markPushSent_map st0 _ rs.attempts now.ms _ s.id "digest" h
    · rw [if_neg hacc]
      have hacc' : (p rs.pushCalls).accepted = false := Bool.eq_false_iff.mpr hacc
      rw [map_markByAttempts_append_rejected _ _ _ _ hacc']
      exact h

theorem goodAttempt_of_single (entry : SavedSearch × List JobAlert)
    (t : DeliveryAttempt) (c : String) (hsid : t.searchId = entry.1.id)
    (hch : t.channel = c) (a : JobAlert) (ha : a ∈ pendingOn c entry)
    (hids : t.alertIds = [a.id]) : goodAttempt entry t := by
  refine ⟨hsid, ?_⟩
  intro id hid
  rw [hids] at hid
  simp only [List.mem_singleton] at hid
  subst hid
  rw [hch]
  exact ⟨a, ha, rfl⟩

theorem goodAttempt_of_batch (entry : SavedSearch × List JobAlert)
    (t : DeliveryAttempt) (c : String) (L : List JobAlert)
    (hsid : t.searchId = entry.1.id) (hch : t.channel = c)
    (hL : L = pendingOn c entry) (hids : t.alertIds = L.map fun a => a.id) :
    goodAttempt entry t := by
  refine ⟨hsid, ?_⟩
  intro id hid
  rw [hids] at hid
  obtain ⟨a, ha, rfl⟩ := List.mem_map.mp hid
  rw [hch]
  exact ⟨a, hL ▸ ha, rfl⟩

/-- A state transformer preserves the alert-marking invariant and only appends
attempts satisfying `P`. -/
def stepOk (st0 : AlertStore) (now : NowT) (P : DeliveryAttempt → Prop)
    (f : RunState → RunState) : Prop :=
  ∀ rs, rs.store.alerts = st0.alerts.map (markByAttempts rs.attempts now.ms) →
    ((f rs).store.alerts = st0.alerts.map (markByAttempts (f rs).attempts now.ms) ∧
      ∃ n, (f rs).attempts = rs.attempts ++ n ∧ ∀ t ∈ n, P t)

theorem stepOk_pure {st0 : AlertStore} {now : NowT}
    {P : DeliveryAttempt → Prop} (f : RunState → RunState)
    (hst : ∀ rs, (f rs).store.alerts = rs.store.alerts)
    (hat : ∀ rs, (f rs).attempts = rs.attempts) :
    stepOk st0 now P f := by
  intro rs h
  refine ⟨?_, [], by rw [hat]; simp, by simp⟩
  rw [hst, hat]
  exact h

theorem stepOk_comp {st0 : AlertStore} {now : NowT}
    {P : DeliveryAttempt → Prop} (f g : RunState → RunState)
    (hf : stepOk st0 now P f) (hg : stepOk st0 now P g) :
    stepOk st0 now P fun rs => g (f rs) := by
  intro rs h
  obtain ⟨h1, n1, ha1, hg1⟩ := hf rs h
  obtain ⟨h2, n2, ha2, hg2⟩ := hg (f rs) h1
  refine ⟨h2, n1 ++ n2, ?_, ?_⟩
  · rw [ha2, ha1, List.append_assoc]
  · intro t ht
    rcases List.mem_append.mp ht with ht | ht
    · exact hg1 t ht
    · exact hg2 t ht

theorem stepOk_ite {st0 : AlertStore} {now : NowT}
    {P : DeliveryAttempt → Prop} (c : Prop) [Decidable c]
    (f g : RunState → RunState) (hf : stepOk st0 now P f)
    (hg : stepOk st0 now P g) :
    stepOk st0 now P fun rs => if c then f rs else g rs := by
  intro rs h
  by_cases hc : c
  · simp only [if_pos hc]
    exact hf rs h
  · simp only [if_neg hc]
    exact hg rs h

theorem stepOk_mono {st0 : AlertStore} {now : NowT}
    {P Q : DeliveryAttempt → Prop} (f : RunState → RunState)
    (hPQ : ∀ t, P t → Q t) (hf : stepOk st0 now P f) : stepOk st0 now Q f := by
  intro rs h
  obtain ⟨h1, n, ha, hp⟩ := hf rs h
  exact ⟨h1, n, ha, fun t ht => hPQ t (hp t ht)⟩

/-- An attempt produced for a fetched entry: well-formed, and the entry was
either instant-cadence or a due digest at the run clock. -/
def liveAttempt (now : NowT) (entry : SavedSearch × List JobAlert)
    (t : DeliveryAttempt) : Prop :=
  goodAttempt entry t ∧
  ((normalizeCadence entry.1.digestCadence == "instant") = true ∨
    isDigestDue (normalizeCadence entry.1.digestCadence) entry.1.digestHour
      entry.1.lastDigestAt now = true)

theorem processSearch_spec (st0 : AlertStore) (e p : ℕ → SendResult) (now : NowT)
    (rs : RunState) (entry : SavedSearch × List JobAlert)
    (h : rs.store.alerts = st0.alerts.map (markByAttempts rs.attempts now.ms)) :
    (processSearch e p now rs entry).store.alerts =
      st0.alerts.map
        (markByAttempts (processSearch e p now rs entry).attempts now.ms) ∧
    ∃ newAtts, (processSearch e p now rs entry).attempts = rs.attempts ++ newAtts ∧
      ∀ t ∈ newAtts, liveAttempt now entry t := by
  unfold processSearch
  dsimp only
  set cc := channelPendingCounts entry.1 entry.2 with hcc
  have hpe : cc.emailAlerts = pendingOn "email" entry := by
    rw [hcc, channelPendingCounts_email, Prod.mk.eta]
  have hpi : cc.inAppAlerts = pendingOn "in_app" entry := by
    rw [hcc, channelPendingCounts_inApp, Prod.mk.eta]
  have hpp : cc.pushAlerts = pendingOn "push" entry := by
    rw [hcc, channelPendingCounts_push, Prod.mk.eta]
  have hbump1 : stepOk st0 now (goodAttempt entry)
      (fun r => { r with searchesScanned := r.searchesScanned + 1 }) :=
    stepOk_pure _ (fun r => rfl) fun r => rfl
  have hemailLoop : stepOk st0 now (goodAttempt entry)
      (fun r => instantEmailLoop e entry.1 now cc.emailAlerts r) := by
    intro r hr
    obtain ⟨h1, n, ha, hp⟩ := instantEmailLoop_spec st0 e entry.1 now cc.emailAlerts r hr
    refine ⟨h1, n, ha, ?_⟩
    intro t ht
    obtain ⟨hsid, hch, a, haa, hids⟩ := hp t ht
    exact goodAttempt_of_single entry t "email" hsid hch a (hpe ▸ haa) hids
  have hiaStep : stepOk st0 now (goodAttempt entry)
      (fun r => instantInAppStep entry.1 cc.inAppAlerts now r) := by
    intro r hr
    refine ⟨instantInAppStep_alerts st0 entry.1 cc.inAppAlerts now r hr,
      [⟨entry.1.id, "in_app", "instant", true, cc.inAppAlerts.map fun a => a.id⟩],
      instantInAppStep_attempts entry.1 cc.inAppAlerts now r, ?_⟩
    intro t ht
    simp only [List.mem_singleton] at ht
    subst ht
    exact goodAttempt_of_batch entry _ "in_app" cc.inAppAlerts rfl rfl hpi rfl
  have hpushDigest : ∀ cad : String, stepOk st0 now (goodAttempt entry)
      (fun r => deliverPushDigest p entry.1 cc.pushAlerts now cad r) := by
    intro cad r hr
    refine ⟨deliverPushDigest_alerts st0 p entry.1 cc.pushAlerts now cad r hr, ?_⟩
    have hat := deliverPushDigest_attempts p entry.1 cc.pushAlerts now cad r
    by_cases hemp : cc.pushAlerts.isEmpty = true
    · rw [if_pos hemp] at hat
      exact ⟨[], by rw [hat]; simp, by simp⟩
    · rw [if_neg hemp] at hat
      refine ⟨[⟨entry.1.id, "push", "digest", (p r.pushCalls).accepted,
        cc.pushAlerts.map fun a => a.id⟩], hat, ?_⟩
      intro t ht
      simp only [List.mem_singleton] at ht
      subst ht
      exact goodAttempt_of_batch entry _ "push" cc.pushAlerts rfl rfl hpp rfl
  have hpushLoop : stepOk st0 now (goodAttempt entry)
      (fun r => pushInstantLoop p entry.1 now cc.pushAlerts r) := by
    intro r hr
    obtain ⟨h1, n, ha, hp'⟩ := pushInstantLoop_spec st0 p entry.1 now cc.pushAlerts r hr
    refine ⟨h1, n, ha, ?_⟩
    intro t ht
    obtain ⟨hsid, hch, a, haa, hids⟩ := hp' t ht
    exact goodAttempt_of_single entry t "push" hsid hch a (hpp ▸ haa) hids
  have hdigestEmail : stepOk st0 now (goodAttempt entry)
      (fun r => digestEmailStep e entry.1 (normalizeCadence entry.1.digestCadence)
        cc.emailAlerts now r) := by
    intro r hr
    refine ⟨digestEmailStep_alerts st0 e entry.1 _ cc.emailAlerts now r hr,
      [⟨entry.1.id, "email", "digest", (e r.emailCalls).accepted,
        cc.emailAlerts.map fun (a : JobAlert) => a.id⟩],
      digestEmailStep_attempts e entry.1 _ cc.emailAlerts now r, ?_⟩
    intro t ht
    simp only [List.mem_singleton] at ht
    subst ht
    exact goodAttempt_of_batch entry _ "email" cc.emailAlerts rfl rfl hpe rfl
  have hdigestIA : stepOk st0 now (goodAttempt entry)
      (fun r => digestInAppStep entry.1 (normalizeCadence entry.1.digestCadence)
        cc.inAppAlerts now r) := by
    intro r hr
    refine ⟨digestInAppStep_alerts st0 entry.1 _ cc.inAppAlerts now r hr,
      [⟨entry.1.id, "in_app", "digest", true, cc.inAppAlerts.map fun a => a.id⟩],
      digestInAppStep_attempts entry.1 _ cc.inAppAlerts now r, ?_⟩
    intro t ht
    simp only [List.mem_singleton] at ht
    subst ht
    exact goodAttempt_of_batch entry _ "in_app" cc.inAppAlerts rfl rfl hpi rfl
  have hbumpA1 : stepOk st0 now (goodAttempt entry)
      (fun r => { r with attemptedDeliveries := r.attemptedDeliveries + 1 }) :=
    stepOk_pure _ (fun r => rfl) fun r => rfl
  have hbumpAN : stepOk st0 now (goodAttempt entry)
      (fun r => { r with attemptedDeliveries :=
        r.attemptedDeliveries + cc.pushAlerts.length }) :=
    stepOk_pure _ (fun r => rfl) fun r => rfl
  have hwaitBump : stepOk st0 now (goodAttempt entry)
      (fun r => { r with waitingDigestSearches := r.waitingDigestSearches + 1 }) :=
    stepOk_pure _ (fun r => rfl) fun r => rfl
  have hwrap : stepOk st0 now (goodAttempt entry)
      (fun r => { r with store := setLastDigestAt r.store entry.1.id now.ms }) :=
    stepOk_pure _ (fun r => setLastDigestAt_alerts r.store entry.1.id now.ms)
      fun r => rfl
  by_cases hq : cc.pendingUniqueCount = 0
  · rw [if_pos hq]
    exact (@stepOk_pure st0 now (liveAttempt now entry)
      (fun r => { r with searchesScanned := r.searchesScanned + 1 })
      (fun r => rfl) fun r => rfl) rs h
  rw [if_neg hq]
  by_cases hI : (normalizeCadence entry.1.digestCadence == "instant") = true
  · rw [if_neg (by simp [hI]), if_pos hI]
    exact stepOk_mono _ (fun t ht => ⟨ht, Or.inl hI⟩)
      (stepOk_comp _ _ hbump1 (stepOk_comp _ _
        (stepOk_comp _ _ hemailLoop
          (stepOk_ite _ _ _ (stepOk_pure _ (fun r => rfl) fun r => rfl) hiaStep))
        (stepOk_ite _ _ _ (stepOk_pure _ (fun r => rfl) fun r => rfl)
          (stepOk_ite _ _ _
            (stepOk_comp _ _ hbumpA1 (hpushDigest "instant"))
            (stepOk_comp _ _ hbumpAN hpushLoop))))) rs h
  · have hI' : (normalizeCadence entry.1.digestCadence == "instant") = false :=
      Bool.eq_false_iff.mpr hI
    by_cases hD : isDigestDue (normalizeCadence entry.1.digestCadence)
        entry.1.digestHour entry.1.lastDigestAt now = true
    · rw [if_neg (by simp [hI', hD]), if_neg (by simp [hI'])]
      exact stepOk_mono _ (fun t ht => ⟨ht, Or.inr hD⟩)
        (stepOk_comp _ _ hbump1 (stepOk_comp _ _ (stepOk_comp _ _
          (stepOk_ite _ _ _ (stepOk_pure _ (fun r => rfl) fun r => rfl) hdigestEmail)
          (stepOk_ite _ _ _ (stepOk_pure _ (fun r => rfl) fun r => rfl) hdigestIA))
          (stepOk_comp _ _
            (stepOk_ite _ _ _ (stepOk_pure _ (fun r => rfl) fun r => rfl)
              (stepOk_comp _ _ hbumpA1 (hpushDigest
                (normalizeCadence entry.1.digestCadence))))
            hwrap))) rs h
    · have hD' : isDigestDue (normalizeCadence entry.1.digestCadence)
          entry.1.digestHour entry.1.lastDigestAt now = false :=
        Bool.eq_false_iff.mpr hD
      rw [if_pos (by simp [hI', hD'])]
      exact (stepOk_comp _ _
        (@stepOk_pure st0 now (liveAttempt now entry)
          (fun r => { r with searchesScanned := r.searchesScanned + 1 })
          (fun r => rfl) fun r => rfl)
        (@stepOk_pure st0 now (liveAttempt now entry)
          (fun r => { r with waitingDigestSearches := r.waitingDigestSearches + 1 })
          (fun r => rfl) fun r => rfl)) rs h

theorem foldl_processSearch_spec (st0 : AlertStore) (e p : ℕ → SendResult)
    (now : NowT) (E : List (SavedSearch × List JobAlert)) :
    ∀ (entries : List (SavedSearch × List JobAlert)),
      (∀ x ∈ entries, x ∈ E) → ∀ rs : RunState,
      rs.store.alerts = st0.alerts.map (markByAttempts rs.attempts now.ms) →
      (∀ t ∈ rs.attempts, ∃ entry ∈ E, liveAttempt now entry t) →
      ((entries.foldl (processSearch e p now) rs).store.alerts =
          st0.alerts.map
            (markByAttempts
              ((entries.foldl (processSearch e p now) rs)).attempts now.ms) ∧
        ∀ t ∈ (entries.foldl (processSearch e p now) rs).attempts,
          ∃ entry ∈ E, liveAttempt now entry t)
  | [], _, rs, h, hgood => ⟨h, hgood⟩
  | en :: rest, hsub, rs, h, hgood => by
    rw [List.foldl_cons]
    obtain ⟨h1, n1, hat1, hg1⟩ := processSearch_spec st0 e p now rs en h
    refine foldl_processSearch_spec st0 e p now E rest
      (fun x hx => hsub x (List.mem_cons_of_mem _ hx)) _ h1 ?_
    rw [hat1]
    intro t ht
    rcases List.mem_append.mp ht with ht | ht
    · exact hgood t ht
    · exact ⟨en, hsub en (List.mem_cons_self _ _), hg1 t ht⟩

theorem sentAtChannel_markByAttempts (atts : List DeliveryAttempt) (ms : ℤ)
    (a : JobAlert) (c : String)
    (hc : c = "email" ∨ c = "in_app" ∨ c = "push") :
    sentAtChannel c (markByAttempts atts ms a) =
      (if coveredAccepted atts c a.id then some ms else sentAtChannel c a) := by
  rcases hc with rfl | rfl | rfl <;>
    simp [sentAtChannel, markByAttempts]

/-- C4: in a delivery run, an alert's per-channel sent timestamp becomes the
run time iff some provider-accepted attempt covered that alert on that
channel; otherwise (in particular after a rejected attempt) it is unchanged,
and every attempt covers only alerts that were pending on an enabled channel
of the fetched search, so an unaccepted alert stays pending for the next
run. -/
theorem runAlertDeliveryJob_sentAt_iff (st : AlertStore) (uid : Option String)
    (e p : ℕ → SendResult) (now : NowT) :
    (runAlertDeliveryJob st uid e p now).store.alerts =
      st.alerts.map
        (markByAttempts (runAlertDeliveryJob st uid e p now).attempts now.ms) ∧
    (∀ (a : JobAlert) (c : String),
      (c = "email" ∨ c = "in_app" ∨ c = "push") →
      sentAtChannel c
          (markByAttempts (runAlertDeliveryJob st uid e p now).attempts now.ms a) =
        (if coveredAccepted (runAlertDeliveryJob st uid e p now).attempts c a.id
          then some now.ms else sentAtChannel c a)) ∧
    ∀ t ∈ (runAlertDeliveryJob st uid e p now).attempts,
      ∃ entry ∈ fetchPendingSearches st uid, goodAttempt entry t := by
  have hinit : (initialRunState st).store.alerts =
      st.alerts.map (markByAttempts (initialRunState st).attempts now.ms) := by
    have hfun : markByAttempts ([] : List DeliveryAttempt) now.ms = id :=
      funext fun a => markByAttempts_nil now.ms a
    show st.alerts = st.alerts.map (markByAttempts [] now.ms)
    rw [hfun, List.map_id]
  obtain ⟨h1, h2⟩ := foldl_processSearch_spec st e p now
    (fetchPendingSearches st uid) (fetchPendingSearches st uid)
    (fun x hx => hx) (initialRunState st) hinit (by simp [initialRunState])
  refine ⟨h1, fun a c hc => sentAtChannel_markByAttempts _ now.ms a c hc, ?_⟩
  intro t ht
  obtain ⟨entry, hm, hl⟩ := h2 t ht
  exact ⟨entry, hm, hl.1⟩

def wAlertJob : AlertJobInfo := ⟨"T", "C", "L", "S", 50⟩

def wAlert : JobAlert := ⟨10, 1, "r", none, none, none, wAlertJob⟩

def wSearch : SavedSearch :=
  ⟨1, "u", "Lbl", "instant", 0, none, true, false, false, false, "u@x"⟩

def wAlertStore : AlertStore := ⟨[wSearch], [wAlert], []⟩

def wReject : ℕ → SendResult := fun _ => ⟨false, "resend", none, some "rejected"⟩

def wAccept : ℕ → SendResult := fun _ => ⟨true, "resend", some "m1", none⟩

def wNow : NowT := ⟨1000, 12⟩

theorem runAlertDeliveryJob_sentAt_iff_witness :
    sentAtChannel "email"
        (markByAttempts
          (runAlertDeliveryJob wAlertStore none wReject wReject wNow).attempts
          wNow.ms wAlert) = sentAtChannel "email" wAlert ∧
    sentAtChannel "email"
        (markByAttempts
          (runAlertDeliveryJob wAlertStore none wAccept wAccept wNow).attempts
          wNow.ms wAlert) = some wNow.ms := by
  have h1 := runAlertDeliveryJob_sentAt_iff wAlertStore none wReject wReject wNow
  have h2 := runAlertDeliveryJob_sentAt_iff wAlertStore none wAccept wAccept wNow
  constructor
  · rw [h1.2.1 wAlert "email" (Or.inl rfl), if_neg (by decide)]
  · rw [h2.2.1 wAlert "email" (Or.inl rfl), if_pos (by decide)]

/-- The attempts of a run, each tagged by the fetched entry it came from,
which is either instant or a due digest at the run clock. -/
theorem runAlertDeliveryJob_attempts_live (st : AlertStore) (uid : Option String)
    (e p : ℕ → SendResult) (now : NowT) :
    ∀ t ∈ (runAlertDeliveryJob st uid e p now).attempts,
      ∃ entry ∈ fetchPendingSearches st uid, liveAttempt now entry t := by
  have hinit : (initialRunState st).store.alerts =
      st.alerts.map (markByAttempts (initialRunState st).attempts now.ms) := by
    have hfun : markByAttempts ([] : List DeliveryAttempt) now.ms = id :=
      funext fun a => markByAttempts_nil now.ms a
    show st.alerts = st.alerts.map (markByAttempts [] now.ms)
    rw [hfun, List.map_id]
  exact (foldl_processSearch_spec st e p now (fetchPendingSearches st uid)
    (fetchPendingSearches st uid) (fun x hx => hx) (initialRunState st) hinit
    (by simp [initialRunState])).2

/-! ### Search-list effects of a run (for the digest clock claim) -/

theorem markEmailSent_searches (st : AlertStore) (ids : List ℕ) (t : ℤ) :
    (markEmailSent st ids t).searches = st.searches := rfl

theorem markInAppSent_searches (st : AlertStore) (ids : List ℕ) (t : ℤ) :
    (markInAppSent st ids t).searches = st.searches := rfl

theorem markPushSent_searches (st : AlertStore) (ids : List ℕ) (t : ℤ) :
    (markPushSent st ids t).searches = st.searches := rfl

theorem appendLog_searches (st : AlertStore) (row : AlertDeliveryLogRow) :
    (appendLog st row).searches = st.searches := rfl

theorem createInternalDeliveryLogs_searches (s : SavedSearch)
    (alerts : List JobAlert) (now : NowT) (kind subject payload : String)
    (st : AlertStore) :
    (createInternalDeliveryLogs s alerts now kind subject payload st).1.searches =
      st.searches := by
  unfold createInternalDeliveryLogs
  dsimp only
  split <;> rfl

theorem emailIterState_searches (e : ℕ → SendResult) (s : SavedSearch)
    (now : NowT) (alert : JobAlert) (rs : RunState) :
    (emailIterState e s now alert rs).store.searches = rs.store.searches := by
  unfold emailIterState
  dsimp only
  split <;> rfl

theorem pushIterState_searches (p : ℕ → SendResult) (s : SavedSearch)
    (now : NowT) (alert : JobAlert) (rs : RunState) :
    (pushIterState p s now alert rs).store.searches = rs.store.searches := by
  unfold pushIterState
  dsimp only
  split <;> rfl

theorem instantEmailLoop_searches (e : ℕ → SendResult) (s : SavedSearch)
    (now : NowT) :
    ∀ (alerts : List JobAlert) (rs : RunState),
      (instantEmailLoop e s now alerts rs).store.searches = rs.store.searches
  | [], rs => rfl
  | alert :: rest, rs => by
    rw [instantEmailLoop]
    rw [instantEmailLoop_searches e s now rest (emailIterState e s now alert rs)]
    exact emailIterState_searches e s now alert rs

theorem pushInstantLoop_searches (p : ℕ → SendResult) (s : SavedSearch)
    (now : NowT) :
    ∀ (alerts : List JobAlert) (rs : RunState),
      (pushInstantLoop p s now alerts rs).store.searches = rs.store.searches
  | [], rs => rfl
  | alert :: rest, rs => by
    rw [pushInstantLoop]
    rw [pushInstantLoop_searches p s now rest (pushIterState p s now alert rs)]
    exact pushIterState_searches p s now alert rs

theorem deliverPushDigest_searches (p : ℕ → SendResult) (s : SavedSearch)
    (alerts : List JobAlert) (now : NowT) (cadence : String) (rs : RunState) :
    (deliverPushDigest p s alerts now cadence rs).store.searches =
      rs.store.searches := by
  unfold deliverPushDigest
  dsimp only
  split
  · rfl
  · dsimp only
    split <;> rfl

theorem digestEmailStep_searches (e : ℕ → SendResult) (s : SavedSearch)
    (cadence : String) (emailAlerts : List JobAlert) (now : NowT)
    (rs : RunState) :
    (digestEmailStep e s cadence emailAlerts now rs).store.searches =
      rs.store.searches := by
  unfold digestEmailStep
  dsimp only
  split <;> rfl

theorem instantInAppStep_searches (s : SavedSearch) (inAppAlerts : List JobAlert)
    (now : NowT) (rs : RunState) :
    (instantInAppStep s inAppAlerts now rs).store.searches =
      rs.store.searches := by
  show (markInAppSent _ _ _).searches = _
  rw [markInAppSent_searches, createInternalDeliveryLogs_searches]

theorem digestInAppStep_searches (s : SavedSearch) (cadence : String)
    (inAppAlerts : List JobAlert) (now : NowT) (rs : RunState) :
    (digestInAppStep s cadence inAppAlerts now rs).store.searches =
      rs.store.searches := by
  show (markInAppSent _ _ _).searches = _
  rw [markInAppSent_searches, createInternalDeliveryLogs_searches]

/-- The per-row update applied by `setLastDigestAt`. -/
def stampSearch (sid : ℕ) (ms : ℤ) (x : SavedSearch) : SavedSearch :=
  if x.id == sid then { x with lastDigestAt := some ms } else x

theorem setLastDigestAt_searches (st : AlertStore) (sid : ℕ) (t : ℤ) :
    (setLastDigestAt st sid t).searches = st.searches.map (stampSearch sid t) := rfl

theorem setAttempted_searches (r : RunState) (n : ℕ) :
    ({ r with attemptedDeliveries := n } : RunState).store.searches =
      r.store.searches := rfl

theorem setAttempted_logs (r : RunState) (n : ℕ) :
    ({ r with attemptedDeliveries := n } : RunState).store.logs =
      r.store.logs := rfl

/-- Mid-run, every search row carrying the id of `s` is either the original
`s` or `s` with `lastDigestAt` stamped to `ms`. -/
def lastSetInv (s : SavedSearch) (ms : ℤ) (l : List SavedSearch) : Prop :=
  ∀ x ∈ l, x.id = s.id → (x = s ∨ x = { s with lastDigestAt := some ms })

/-- After the stamp, every search row carrying the id of `s` is the
stamped `s`. -/
def lastDone (s : SavedSearch) (ms : ℤ) (l : List SavedSearch) : Prop :=
  ∀ x ∈ l, x.id = s.id → x = { s with lastDigestAt := some ms }

theorem lastSetInv_init (s : SavedSearch) (ms : ℤ) (l : List SavedSearch)
    (hnd : (l.map fun x => x.id).Nodup) (hs : s ∈ l) : lastSetInv s ms l := by
  intro x hx hid
  exact Or.inl (List.inj_on_of_nodup_map hnd hx hs hid)

theorem lastSetInv_map (s : SavedSearch) (ms : ℤ) (sid : ℕ)
    (l : List SavedSearch) (h : lastSetInv s ms l) :
    lastSetInv s ms (l.map (stampSearch sid ms)) := by
  intro x' hx' hid
  obtain ⟨x, hx, rfl⟩ := List.mem_map.1 hx'
  unfold stampSearch at hid ⊢
  by_cases hb : (x.id == sid) = true
  · rw [if_pos hb] at hid ⊢
    have hxid : x.id = s.id := hid
    rcases h x hx hxid with h1 | h1
    · subst h1; exact Or.inr rfl
    · subst h1; exact Or.inr rfl
  · rw [if_neg hb] at hid ⊢
    exact h x hx hid

theorem lastDone_map (s : SavedSearch) (ms : ℤ) (sid : ℕ)
    (l : List SavedSearch) (h : lastDone s ms l) :
    lastDone s ms (l.map (stampSearch sid ms)) := by
  intro x' hx' hid
  obtain ⟨x, hx, rfl⟩ := List.mem_map.1 hx'
  unfold stampSearch at hid ⊢
  by_cases hb : (x.id == sid) = true
  · rw [if_pos hb] at hid ⊢
    have hxid : x.id = s.id := hid
    have hx' := h x hx hxid
    subst hx'
    rfl
  · rw [if_neg hb] at hid ⊢
    exact h x hx hid

theorem lastDone_of_inv_map (s : SavedSearch) (ms : ℤ) (l : List SavedSearch)
    (h : lastSetInv s ms l) :
    lastDone s ms (l.map (stampSearch s.id ms)) := by
  intro x' hx' hid
  obtain ⟨x, hx, rfl⟩ := List.mem_map.1 hx'
  unfold stampSearch at hid ⊢
  by_cases hb : (x.id == s.id) = true
  · rw [if_pos hb] at hid ⊢
    have hxid : x.id = s.id := by simpa using hb
    rcases h x hx hxid with h1 | h1
    · subst h1; rfl
    · subst h1; rfl
  · rw [if_neg hb] at hid ⊢
    have hne : x.id ≠ s.id := by simpa using hb
    exact (hne hid).elim

theorem processSearch_searches (e p : ℕ → SendResult) (now : NowT)
    (rs : RunState) (entry : SavedSearch × List JobAlert) :
    (processSearch e p now rs entry).store.searches = rs.store.searches ∨
    (processSearch e p now rs entry).store.searches =
      rs.store.searches.map (stampSearch entry.1.id now.ms) := by
  unfold processSearch
  dsimp only
  set cc := channelPendingCounts entry.1 entry.2 with hcc
  by_cases hq : cc.pendingUniqueCount = 0
  · rw [if_pos hq]; exact Or.inl rfl
  rw [if_neg hq]
  by_cases hI : (normalizeCadence entry.1.digestCadence == "instant") = true
  · rw [if_neg (by simp [hI]), if_pos hI]
    refine Or.inl ?_
    by_cases hpu : cc.pushAlerts.isEmpty = true
    · rw [if_pos hpu]
      by_cases hia : cc.inAppAlerts.isEmpty = true
      · rw [if_pos hia, instantEmailLoop_searches]
      · rw [if_neg hia, instantInAppStep_searches, instantEmailLoop_searches]
    · rw [if_neg hpu]
      by_cases hd : entry.1.pushDeferred = true
      · rw [if_pos hd, deliverPushDigest_searches, setAttempted_searches]
        by_cases hia : cc.inAppAlerts.isEmpty = true
        · rw [if_pos hia, instantEmailLoop_searches]
        · rw [if_neg hia, instantInAppStep_searches, instantEmailLoop_searches]
      · rw [if_neg hd, pushInstantLoop_searches, setAttempted_searches]
        by_cases hia : cc.inAppAlerts.isEmpty = true
        · rw [if_pos hia, instantEmailLoop_searches]
        · rw [if_neg hia, instantInAppStep_searches, instantEmailLoop_searches]
  · have hI' : (normalizeCadence entry.1.digestCadence == "instant") = false :=
      Bool.eq_false_iff.mpr hI
    by_cases hD : isDigestDue (normalizeCadence entry.1.digestCadence)
        entry.1.digestHour entry.1.lastDigestAt now = true
    · rw [if_neg (by simp [hI', hD]), if_neg (by simp [hI'])]
      refine Or.inr ?_
      show (setLastDigestAt _ entry.1.id now.ms).searches = _
      rw [setLastDigestAt_searches]
      congr 1
      by_cases hpu : cc.pushAlerts.isEmpty = true
      · rw [if_pos hpu]
        by_cases hia : cc.inAppAlerts.isEmpty = true
        · rw [if_pos hia]
          by_cases hem : cc.emailAlerts.isEmpty = true
          · rw [if_pos hem]
          · rw [if_neg hem, digestEmailStep_searches]
        · rw [if_neg hia, digestInAppStep_searches]
          by_cases hem : cc.emailAlerts.isEmpty = true
          · rw [if_pos hem]
          · rw [if_neg hem, digestEmailStep_searches]
      · rw [if_neg hpu, deliverPushDigest_searches, setAttempted_searches]
        by_cases hia : cc.inAppAlerts.isEmpty = true
        · rw [if_pos hia]
          by_cases hem : cc.emailAlerts.isEmpty = true
          · rw [if_pos hem]
          · rw [if_neg hem, digestEmailStep_searches]
        · rw [if_neg hia, digestInAppStep_searches]
          by_cases hem : cc.emailAlerts.isEmpty = true
          · rw [if_pos hem]
          · rw [if_neg hem, digestEmailStep_searches]
    · have hD' : isDigestDue (normalizeCadence entry.1.digestCadence)
          entry.1.digestHour entry.1.lastDigestAt now = false :=
        Bool.eq_false_iff.mpr hD
      rw [if_pos (by simp [hI', hD'])]
      exact Or.inl rfl

theorem processSearch_searches_due (e p : ℕ → SendResult) (now : NowT)
    (rs : RunState) (entry : SavedSearch × List JobAlert)
    (hq : (channelPendingCounts entry.1 entry.2).pendingUniqueCount ≠ 0)
    (hI : (normalizeCadence entry.1.digestCadence == "instant") = false)
    (hD : isDigestDue (normalizeCadence entry.1.digestCadence)
      entry.1.digestHour entry.1.lastDigestAt now = true) :
    (processSearch e p now rs entry).store.searches =
      rs.store.searches.map (stampSearch entry.1.id now.ms) := by
  unfold processSearch
  dsimp only
  set cc := channelPendingCounts entry.1 entry.2 with hcc
  rw [if_neg hq, if_neg (by simp [hI, hD]), if_neg (by simp [hI])]
  show (setLastDigestAt _ entry.1.id now.ms).searches = _
  rw [setLastDigestAt_searches]
  congr 1
  by_cases hpu : cc.pushAlerts.isEmpty = true
  · rw [if_pos hpu]
    by_cases hia : cc.inAppAlerts.isEmpty = true
    · rw [if_pos hia]
      by_cases hem : cc.emailAlerts.isEmpty = true
      · rw [if_pos hem]
      · rw [if_neg hem, digestEmailStep_searches]
    · rw [if_neg hia, digestInAppStep_searches]
      by_cases hem : cc.emailAlerts.isEmpty = true
      · rw [if_pos hem]
      · rw [if_neg hem, digestEmailStep_searches]
  · rw [if_neg hpu, deliverPushDigest_searches, setAttempted_searches]
    by_cases hia : cc.inAppAlerts.isEmpty = true
    · rw [if_pos hia]
      by_cases hem : cc.emailAlerts.isEmpty = true
      · rw [if_pos hem]
      · rw [if_neg hem, digestEmailStep_searches]
    · rw [if_neg hia, digestInAppStep_searches]
      by_cases hem : cc.emailAlerts.isEmpty = true
      · rw [if_pos hem]
      · rw [if_neg hem, digestEmailStep_searches]

theorem foldl_lastSetInv (e p : ℕ → SendResult) (now : NowT) (s : SavedSearch) :
    ∀ (entries : List (SavedSearch × List JobAlert)) (rs : RunState),
      lastSetInv s now.ms rs.store.searches →
      lastSetInv s now.ms
        ((entries.foldl (processSearch e p now) rs).store.searches)
  | [], _, h => h
  | en :: rest, rs, h => by
    rw [List.foldl_cons]
    refine foldl_lastSetInv e p now s rest _ ?_
    rcases processSearch_searches e p now rs en with he | he
    · rw [he]; exact h
    · rw [he]; exact lastSetInv_map s now.ms en.1.id _ h

theorem foldl_lastDone (e p : ℕ → SendResult) (now : NowT) (s : SavedSearch) :
    ∀ (entries : List (SavedSearch × List JobAlert)) (rs : RunState),
      lastDone s now.ms rs.store.searches →
      lastDone s now.ms
        ((entries.foldl (processSearch e p now) rs).store.searches)
  | [], _, h => h
  | en :: rest, rs, h => by
    rw [List.foldl_cons]
    refine foldl_lastDone e p now s rest _ ?_
    rcases processSearch_searches e p now rs en with he | he
    · rw [he]; exact h
    · rw [he]; exact lastDone_map s now.ms en.1.id _ h

/-- C10: in every delivery run, a due digest saved search with pending alerts
gets `lastDigestAt` set to the run time whatever the providers answer, and no
later run before a full cadence interval has elapsed makes any delivery
attempt for that search. -/
theorem runAlertDeliveryJob_digest_lastDigestAt (st : AlertStore)
    (uid : Option String) (e p : ℕ → SendResult) (now : NowT) (s : SavedSearch)
    (hnd : (st.searches.map fun x => x.id).Nodup)
    (hs : s ∈ st.searches)
    (hscope : (match uid with
      | some u => s.userId == u
      | none => true) = true)
    (hen : (s.emailEnabled || s.inAppEnabled || s.pushEnabled) = true)
    (hI : (normalizeCadence s.digestCadence == "instant") = false)
    (hD : isDigestDue (normalizeCadence s.digestCadence) s.digestHour
      s.lastDigestAt now = true)
    (hq : (channelPendingCounts s (pendingAlertsOf st s)).pendingUniqueCount ≠ 0) :
    (∀ x ∈ (runAlertDeliveryJob st uid e p now).store.searches,
      x.id = s.id → x = { s with lastDigestAt := some now.ms }) ∧
    ∀ (uid2 : Option String) (e2 p2 : ℕ → SendResult) (now2 : NowT),
      now2.ms - now.ms <
        (cadenceIntervalHours (normalizeCadence s.digestCadence) : ℤ) * 3600000 →
      ∀ t ∈ (runAlertDeliveryJob (runAlertDeliveryJob st uid e p now).store
          uid2 e2 p2 now2).attempts, t.searchId ≠ s.id := by
  have hmem : (s, pendingAlertsOf st s) ∈ fetchPendingSearches st uid := by
    unfold fetchPendingSearches
    exact List.mem_map.2
      ⟨s, List.mem_filter.2 ⟨hs, by rw [hscope, hen]; rfl⟩, rfl⟩
  obtain ⟨L1, L2, hsplit⟩ := List.append_of_mem hmem
  have hinv0 : lastSetInv s now.ms (initialRunState st).store.searches :=
    lastSetInv_init s now.ms st.searches hnd hs
  have hinv1 := foldl_lastSetInv e p now s L1 (initialRunState st) hinv0
  have hdue := processSearch_searches_due e p now
    (L1.foldl (processSearch e p now) (initialRunState st))
    (s, pendingAlertsOf st s) hq hI hD
  have hdone1 : lastDone s now.ms
      (processSearch e p now (L1.foldl (processSearch e p now)
        (initialRunState st)) (s, pendingAlertsOf st s)).store.searches := by
    rw [hdue]
    exact lastDone_of_inv_map s now.ms _ hinv1
  have hdone2 := foldl_lastDone e p now s L2 _ hdone1
  have hfinal : ∀ x ∈ (runAlertDeliveryJob st uid e p now).store.searches,
      x.id = s.id → x = { s with lastDigestAt := some now.ms } := by
    intro x hx
    rw [runAlertDeliveryJob, hsplit, List.foldl_append, List.foldl_cons] at hx
    exact hdone2 x hx
  refine ⟨hfinal, ?_⟩
  intro uid2 e2 p2 now2 hlt t ht hts
  obtain ⟨entry, hment, hgood, hcad⟩ := runAlertDeliveryJob_attempts_live
    (runAlertDeliveryJob st uid e p now).store uid2 e2 p2 now2 t ht
  have hentrymem : entry.1 ∈ (runAlertDeliveryJob st uid e p now).store.searches := by
    unfold fetchPendingSearches at hment
    obtain ⟨x, hxf, hxe⟩ := List.mem_map.1 hment
    have hx1 : entry.1 = x := congrArg Prod.fst hxe.symm
    rw [hx1]
    exact List.mem_of_mem_filter hxf
  have hsid : entry.1.id = s.id := hgood.1.symm.trans hts
  have heq : entry.1 = { s with lastDigestAt := some now.ms } :=
    hfinal entry.1 hentrymem hsid
  rcases hcad with hinst | hdue2
  · rw [heq] at hinst
    have hinst' : (normalizeCadence s.digestCadence == "instant") = true := hinst
    rw [hI] at hinst'
    exact Bool.false_ne_true hinst'
  · rw [heq] at hdue2
    have hdue2' : isDigestDue (normalizeCadence s.digestCadence) s.digestHour
        (some now.ms) now2 = true := hdue2
    unfold isDigestDue at hdue2'
    by_cases hh : now2.hour < s.digestHour
    · rw [if_pos hh] at hdue2'
      exact Bool.false_ne_true hdue2'
    · rw [if_neg hh] at hdue2'
      have h2 : decide ((cadenceIntervalHours
          (normalizeCadence s.digestCadence) : ℤ) * 3600000 ≤
            now2.ms - now.ms) = true := hdue2'
      exact absurd (of_decide_eq_true h2) (not_le.mpr hlt)

/-! ### Delivery-log accounting (for the in-app batch-log claim) -/

/-- The number of in-app delivery-log rows for one saved search. -/
def inAppLogsFor (sid : ℕ) (l : List AlertDeliveryLogRow) : ℕ :=
  l.countP fun r => r.savedSearchId == sid && r.channel == "in_app"

theorem markEmailSent_logs (st : AlertStore) (ids : List ℕ) (t : ℤ) :
    (markEmailSent st ids t).logs = st.logs := rfl

theorem markInAppSent_logs (st : AlertStore) (ids : List ℕ) (t : ℤ) :
    (markInAppSent st ids t).logs = st.logs := rfl

theorem markPushSent_logs (st : AlertStore) (ids : List ℕ) (t : ℤ) :
    (markPushSent st ids t).logs = st.logs := rfl

theorem setLastDigestAt_logs (st : AlertStore) (sid : ℕ) (t : ℤ) :
    (setLastDigestAt st sid t).logs = st.logs := rfl

theorem inAppLogsFor_appendLog (sid : ℕ) (st : AlertStore)
    (row : AlertDeliveryLogRow)
    (h : (row.savedSearchId == sid && row.channel == "in_app") = false) :
    inAppLogsFor sid (appendLog st row).logs = inAppLogsFor sid st.logs := by
  unfold inAppLogsFor appendLog
  dsimp only
  rw [List.countP_append]
  simp [List.countP_cons, h]

theorem rowNotInApp_email (sid x : ℕ) :
    ((x == sid) && (("email" : String) == "in_app")) = false := by
  rw [(by decide : (("email" : String) == "in_app") = false)]
  exact Bool.and_false _

theorem rowNotInApp_push (sid x : ℕ) :
    ((x == sid) && (("push" : String) == "in_app")) = false := by
  rw [(by decide : (("push" : String) == "in_app") = false)]
  exact Bool.and_false _

theorem emailIterState_inAppLogs (sid : ℕ) (e : ℕ → SendResult) (s : SavedSearch)
    (now : NowT) (alert : JobAlert) (rs : RunState) :
    inAppLogsFor sid (emailIterState e s now alert rs).store.logs =
      inAppLogsFor sid rs.store.logs := by
  unfold emailIterState
  dsimp only
  split
  · show inAppLogsFor sid (markEmailSent _ _ _).logs = _
    rw [markEmailSent_logs]
    exact inAppLogsFor_appendLog sid rs.store _ (rowNotInApp_email sid _)
  · show inAppLogsFor sid (appendLog rs.store _).logs = _
    exact inAppLogsFor_appendLog sid rs.store _ (rowNotInApp_email sid _)

theorem pushIterState_inAppLogs (sid : ℕ) (p : ℕ → SendResult) (s : SavedSearch)
    (now : NowT) (alert : JobAlert) (rs : RunState) :
    inAppLogsFor sid (pushIterState p s now alert rs).store.logs =
      inAppLogsFor sid rs.store.logs := by
  unfold pushIterState
  dsimp only
  split
  · show inAppLogsFor sid (markPushSent _ _ _).logs = _
    rw [markPushSent_logs]
    exact inAppLogsFor_appendLog sid rs.store _ (rowNotInApp_push sid _)
  · show inAppLogsFor sid (appendLog rs.store _).logs = _
    exact inAppLogsFor_appendLog sid rs.store _ (rowNotInApp_push sid _)

theorem instantEmailLoop_inAppLogs (sid : ℕ) (e : ℕ → SendResult)
    (s : SavedSearch) (now : NowT) :
    ∀ (alerts : List JobAlert) (rs : RunState),
      inAppLogsFor sid (instantEmailLoop e s now alerts rs).store.logs =
        inAppLogsFor sid rs.store.logs
  | [], _ => rfl
  | alert :: rest, rs => by
    rw [instantEmailLoop]
    rw [instantEmailLoop_inAppLogs sid e s now rest
      (emailIterState e s now alert rs)]
    exact emailIterState_inAppLogs sid e s now alert rs

theorem pushInstantLoop_inAppLogs (sid : ℕ) (p : ℕ → SendResult)
    (s : SavedSearch) (now : NowT) :
    ∀ (alerts : List JobAlert) (rs : RunState),
      inAppLogsFor sid (pushInstantLoop p s now alerts rs).store.logs =
        inAppLogsFor sid rs.store.logs
  | [], _ => rfl
  | alert :: rest, rs => by
    rw [pushInstantLoop]
    rw [pushInstantLoop_inAppLogs sid p s now rest
      (pushIterState p s now alert rs)]
    exact pushIterState_inAppLogs sid p s now alert rs

theorem deliverPushDigest_inAppLogs (sid : ℕ) (p : ℕ → SendResult)
    (s : SavedSearch) (alerts : List JobAlert) (now : NowT) (cadence : String)
    (rs : RunState) :
    inAppLogsFor sid (deliverPushDigest p s alerts now cadence rs).store.logs =
      inAppLogsFor sid rs.store.logs := by
  unfold deliverPushDigest
  dsimp only
  split
  · rfl
  · dsimp only
    split
    · show inAppLogsFor sid (markPushSent _ _ _).logs = _
      rw [markPushSent_logs]
      exact inAppLogsFor_appendLog sid rs.store _ (rowNotInApp_push sid _)
    · show inAppLogsFor sid (appendLog rs.store _).logs = _
      exact inAppLogsFor_appendLog sid rs.store _ (rowNotInApp_push sid _)

theorem digestEmailStep_inAppLogs (sid : ℕ) (e : ℕ → SendResult)
    (s : SavedSearch) (cadence : String) (emailAlerts : List JobAlert)
    (now : NowT) (rs : RunState) :
    inAppLogsFor sid (digestEmailStep e s cadence emailAlerts now rs).store.logs =
      inAppLogsFor sid rs.store.logs := by
  unfold digestEmailStep
  dsimp only
  split
  · show inAppLogsFor sid (markEmailSent _ _ _).logs = _
    rw [markEmailSent_logs]
    exact inAppLogsFor_appendLog sid rs.store _ (rowNotInApp_email sid _)
  · show inAppLogsFor sid (appendLog rs.store _).logs = _
    exact inAppLogsFor_appendLog sid rs.store _ (rowNotInApp_email sid _)

theorem inAppLogsFor_createLogs (sid : ℕ) (s : SavedSearch)
    (alerts : List JobAlert) (now : NowT) (kind subject payload : String)
    (st : AlertStore) :
    inAppLogsFor sid
      (createInternalDeliveryLogs s alerts now kind subject payload st).1.logs =
      inAppLogsFor sid st.logs + (if s.id == sid then alerts.length else 0) := by
  have hrows : ∀ l : List JobAlert,
      List.countP
        (fun r : AlertDeliveryLogRow => r.savedSearchId == sid && r.channel == "in_app")
        (l.map fun alert =>
          ({ userId := s.userId, alertId := some alert.id, savedSearchId := s.id,
             channel := "in_app", kind := kind, provider := "in_app",
             providerMessageId := none, accepted := true,
             recipient := "user:" ++ s.userId, subject := subject,
             payload := payload, deliveredAtMs := now.ms } : AlertDeliveryLogRow)) =
        if s.id == sid then l.length else 0 := by
    intro l
    induction l with
    | nil => simp
    | cons a t ih =>
      rw [List.map_cons, List.countP_cons, ih]
      have hb : (("in_app" : String) == "in_app") = true := by decide
      by_cases hsid : (s.id == sid) = true
      · simp [hsid, hb]
      · have hsid' : (s.id == sid) = false := Bool.eq_false_iff.mpr hsid
        simp [hsid', hb]
  unfold createInternalDeliveryLogs inAppLogsFor
  dsimp only
  split
  · next h =>
    have ha : alerts = [] := by
      have := List.length_eq_zero.1 (by simpa using h)
      simpa using this
    subst ha
    simp
  · next h =>
    dsimp only
    rw [List.countP_append, hrows alerts]

theorem instantInAppStep_inAppLogs (sid : ℕ) (s : SavedSearch)
    (inAppAlerts : List JobAlert) (now : NowT) (rs : RunState) :
    inAppLogsFor sid (instantInAppStep s inAppAlerts now rs).store.logs =
      inAppLogsFor sid rs.store.logs +
        (if s.id == sid then inAppAlerts.length else 0) := by
  show inAppLogsFor sid (markInAppSent _ _ _).logs = _
  rw [markInAppSent_logs]
  exact inAppLogsFor_createLogs sid s inAppAlerts now "instant" _ _ rs.store

theorem digestInAppStep_inAppLogs (sid : ℕ) (s : SavedSearch) (cadence : String)
    (inAppAlerts : List JobAlert) (now : NowT) (rs : RunState) :
    inAppLogsFor sid (digestInAppStep s cadence inAppAlerts now rs).store.logs =
      inAppLogsFor sid rs.store.logs +
        (if s.id == sid then inAppAlerts.length else 0) := by
  show inAppLogsFor sid (markInAppSent _ _ _).logs = _
  rw [markInAppSent_logs]
  exact inAppLogsFor_createLogs sid s inAppAlerts now "digest" _ _ rs.store

theorem processSearch_inAppLogs_ne (e p : ℕ → SendResult) (now : NowT)
    (rs : RunState) (entry : SavedSearch × List JobAlert) (sid : ℕ)
    (hne : (entry.1.id == sid) = false) :
    inAppLogsFor sid (processSearch e p now rs entry).store.logs =
      inAppLogsFor sid rs.store.logs := by
  unfold processSearch
  dsimp only
  set cc := channelPendingCounts entry.1 entry.2 with hcc
  by_cases hq : cc.pendingUniqueCount = 0
  · rw [if_pos hq]
  rw [if_neg hq]
  by_cases hI : (normalizeCadence entry.1.digestCadence == "instant") = true
  · rw [if_neg (by simp [hI]), if_pos hI]
    by_cases hpu : cc.pushAlerts.isEmpty = true
    · rw [if_pos hpu]
      by_cases hia : cc.inAppAlerts.isEmpty = true
      · rw [if_pos hia, instantEmailLoop_inAppLogs]
      · rw [if_neg hia, instantInAppStep_inAppLogs, instantEmailLoop_inAppLogs,
          hne]
        simp
    · rw [if_neg hpu]
      by_cases hd : entry.1.pushDeferred = true
      · rw [if_pos hd, deliverPushDigest_inAppLogs, setAttempted_logs]
        by_cases hia : cc.inAppAlerts.isEmpty = true
        · rw [if_pos hia, instantEmailLoop_inAppLogs]
        · rw [if_neg hia, instantInAppStep_inAppLogs, instantEmailLoop_inAppLogs,
            hne]
          simp
      · rw [if_neg hd, pushInstantLoop_inAppLogs, setAttempted_logs]
        by_cases hia : cc.inAppAlerts.isEmpty = true
        · rw [if_pos hia, instantEmailLoop_inAppLogs]
        · rw [if_neg hia, instantInAppStep_inAppLogs, instantEmailLoop_inAppLogs,
            hne]
          simp
  · have hI' : (normalizeCadence entry.1.digestCadence == "instant") = false :=
      Bool.eq_false_iff.mpr hI
    by_cases hD : isDigestDue (normalizeCadence entry.1.digestCadence)
        entry.1.digestHour entry.1.lastDigestAt now = true
    · rw [if_neg (by simp [hI', hD]), if_neg (by simp [hI'])]
      show inAppLogsFor sid (setLastDigestAt _ entry.1.id now.ms).logs = _
      rw [setLastDigestAt_logs]
      by_cases hpu : cc.pushAlerts.isEmpty = true
      · rw [if_pos hpu]
        by_cases hia : cc.inAppAlerts.isEmpty = true
        · rw [if_pos hia]
          by_cases hem : cc.emailAlerts.isEmpty = true
          · rw [if_pos hem]
          · rw [if_neg hem, digestEmailStep_inAppLogs]
        · rw [if_neg hia, digestInAppStep_inAppLogs, hne]
          by_cases hem : cc.emailAlerts.isEmpty = true
          · rw [if_pos hem]; simp
          · rw [if_neg hem, digestEmailStep_inAppLogs]; simp
      · rw [if_neg hpu, deliverPushDigest_inAppLogs, setAttempted_logs]
        by_cases hia : cc.inAppAlerts.isEmpty = true
        · rw [if_pos hia]
          by_cases hem : cc.emailAlerts.isEmpty = true
          · rw [if_pos hem]
          · rw [if_neg hem, digestEmailStep_inAppLogs]
        · rw [if_neg hia, digestInAppStep_inAppLogs, hne]
          by_cases hem : cc.emailAlerts.isEmpty = true
          · rw [if_pos hem]; simp
          · rw [if_neg hem, digestEmailStep_inAppLogs]; simp
    · have hD' : isDigestDue (normalizeCadence entry.1.digestCadence)
          entry.1.digestHour entry.1.lastDigestAt now = false :=
        Bool.eq_false_iff.mpr hD
      rw [if_pos (by simp [hI', hD'])]

theorem processSearch_inAppLogs_self (e p : ℕ → SendResult) (now : NowT)
    (rs : RunState) (entry : SavedSearch × List JobAlert)
    (hq : (channelPendingCounts entry.1 entry.2).pendingUniqueCount ≠ 0)
    (hI : (normalizeCadence entry.1.digestCadence == "instant") = true) :
    inAppLogsFor entry.1.id (processSearch e p now rs entry).store.logs =
      inAppLogsFor entry.1.id rs.store.logs +
        (channelPendingCounts entry.1 entry.2).inAppAlerts.length := by
  unfold processSearch
  dsimp only
  set cc := channelPendingCounts entry.1 entry.2 with hcc
  rw [if_neg hq, if_neg (by simp [hI]), if_pos hI]
  have hself : (entry.1.id == entry.1.id) = true := by simp
  by_cases hpu : cc.pushAlerts.isEmpty = true
  · rw [if_pos hpu]
    by_cases hia : cc.inAppAlerts.isEmpty = true
    · rw [if_pos hia, instantEmailLoop_inAppLogs, List.isEmpty_iff.1 hia]
      rfl
    · rw [if_neg hia, instantInAppStep_inAppLogs, instantEmailLoop_inAppLogs,
        hself]
      simp
  · rw [if_neg hpu]
    by_cases hd : entry.1.pushDeferred = true
    · rw [if_pos hd, deliverPushDigest_inAppLogs, setAttempted_logs]
      by_cases hia : cc.inAppAlerts.isEmpty = true
      · rw [if_pos hia, instantEmailLoop_inAppLogs, List.isEmpty_iff.1 hia]
        rfl
      · rw [if_neg hia, instantInAppStep_inAppLogs, instantEmailLoop_inAppLogs,
          hself]
        simp
    · rw [if_neg hd, pushInstantLoop_inAppLogs, setAttempted_logs]
      by_cases hia : cc.inAppAlerts.isEmpty = true
      · rw [if_pos hia, instantEmailLoop_inAppLogs, List.isEmpty_iff.1 hia]
        rfl
      · rw [if_neg hia, instantInAppStep_inAppLogs, instantEmailLoop_inAppLogs,
          hself]
        simp

theorem foldl_inAppLogs_ne (e p : ℕ → SendResult) (now : NowT) (sid : ℕ) :
    ∀ (entries : List (SavedSearch × List JobAlert)) (rs : RunState),
      (∀ en ∈ entries, (en.1.id == sid) = false) →
      inAppLogsFor sid
        ((entries.foldl (processSearch e p now) rs)).store.logs =
        inAppLogsFor sid rs.store.logs
  | [], _, _ => rfl
  | en :: rest, rs, h => by
    rw [List.foldl_cons]
    rw [foldl_inAppLogs_ne e p now sid rest _
      (fun x hx => h x (List.mem_cons_of_mem _ hx))]
    exact processSearch_inAppLogs_ne e p now rs en sid
      (h en (List.mem_cons_self _ _))

theorem pushInstantLoop_attempts_mono (p : ℕ → SendResult) (s : SavedSearch)
    (now : NowT) :
    ∀ (alerts : List JobAlert) (rs : RunState),
      ∃ n, (pushInstantLoop p s now alerts rs).attempts = rs.attempts ++ n
  | [], rs => ⟨[], (List.append_nil _).symm⟩
  | alert :: rest, rs => by
    rw [pushInstantLoop]
    obtain ⟨n, hn⟩ := pushInstantLoop_attempts_mono p s now rest
      (pushIterState p s now alert rs)
    rw [hn, pushIterState_attempts]
    exact ⟨_, List.append_assoc _ _ _⟩

theorem processSearch_inApp_attempt (e p : ℕ → SendResult) (now : NowT)
    (rs : RunState) (entry : SavedSearch × List JobAlert)
    (hq : (channelPendingCounts entry.1 entry.2).pendingUniqueCount ≠ 0)
    (hI : (normalizeCadence entry.1.digestCadence == "instant") = true)
    (hne : (channelPendingCounts entry.1 entry.2).inAppAlerts.isEmpty = false) :
    (⟨entry.1.id, "in_app", "instant", true,
      (channelPendingCounts entry.1 entry.2).inAppAlerts.map fun a => a.id⟩ :
        DeliveryAttempt) ∈ (processSearch e p now rs entry).attempts := by
  unfold processSearch
  dsimp only
  set cc := channelPendingCounts entry.1 entry.2 with hcc
  rw [if_neg hq, if_neg (by simp [hI]), if_pos hI]
  have hmem2 : (⟨entry.1.id, "in_app", "instant", true,
      cc.inAppAlerts.map fun a => a.id⟩ : DeliveryAttempt) ∈
      (if cc.inAppAlerts.isEmpty then
        instantEmailLoop e entry.1 now cc.emailAlerts
          { rs with searchesScanned := rs.searchesScanned + 1 }
      else instantInAppStep entry.1 cc.inAppAlerts now
        (instantEmailLoop e entry.1 now cc.emailAlerts
          { rs with searchesScanned := rs.searchesScanned + 1 })).attempts := by
    rw [if_neg (by simp [hne]), instantInAppStep_attempts]
    exact List.mem_append_right _ (List.mem_singleton.2 rfl)
  by_cases hpu : cc.pushAlerts.isEmpty = true
  · rw [if_pos hpu]
    exact hmem2
  · rw [if_neg hpu]
    by_cases hd : entry.1.pushDeferred = true
    · rw [if_pos hd, deliverPushDigest_attempts]
      by_cases hemp : cc.pushAlerts.isEmpty = true
      · rw [if_pos hemp]
        exact hmem2
      · rw [if_neg hemp]
        exact List.mem_append_left _ hmem2
    · rw [if_neg hd]
      obtain ⟨n, hn⟩ := pushInstantLoop_attempts_mono p entry.1 now cc.pushAlerts _
      rw [hn]
      exact List.mem_append_left _ hmem2

theorem foldl_processSearch_attempts (st0 : AlertStore) (e p : ℕ → SendResult)
    (now : NowT) :
    ∀ (entries : List (SavedSearch × List JobAlert)) (rs : RunState),
      rs.store.alerts = st0.alerts.map (markByAttempts rs.attempts now.ms) →
      ((entries.foldl (processSearch e p now) rs).store.alerts =
          st0.alerts.map
            (markByAttempts
              ((entries.foldl (processSearch e p now) rs)).attempts now.ms) ∧
        ∃ n, (entries.foldl (processSearch e p now) rs).attempts =
          rs.attempts ++ n)
  | [], _, h => ⟨h, [], (List.append_nil _).symm⟩
  | en :: rest, rs, h => by
    rw [List.foldl_cons]
    obtain ⟨h1, n1, hat1, _⟩ := processSearch_spec st0 e p now rs en h
    obtain ⟨h2, n2, hat2⟩ :=
      foldl_processSearch_attempts st0 e p now rest (processSearch e p now rs en) h1
    refine ⟨h2, n1 ++ n2, ?_⟩
    rw [hat2, hat1]
    exact List.append_assoc _ _ _

theorem coveredAccepted_of_mem (atts : List DeliveryAttempt) (c : String)
    (id : ℕ) (t : DeliveryAttempt) (hmem : t ∈ atts) (hc : t.channel = c)
    (hacc : t.accepted = true) (hid : id ∈ t.alertIds) :
    coveredAccepted atts c id = true := by
  unfold coveredAccepted
  refine List.any_eq_true.2 ⟨t, hmem, ?_⟩
  have hcont : t.alertIds.contains id = true := by simpa using hid
  rw [hc, hacc, hcont]
  simp

theorem fetch_ids_nodup (st : AlertStore) (uid : Option String)
    (hnd : (st.searches.map fun x => x.id).Nodup) :
    ((fetchPendingSearches st uid).map fun en => en.1.id).Nodup := by
  unfold fetchPendingSearches
  rw [List.map_map]
  exact hnd.sublist ((List.filter_sublist _).map _)

/-- C6 (amended): for an instant-cadence saved search with pending in-app
alerts, the run marks every pending in-app alert sent and creates one in-app
delivery-log row per alert (a batch of `n` rows, not a single row). -/
theorem runAlertDeliveryJob_instant_inApp (st : AlertStore) (uid : Option String)
    (e p : ℕ → SendResult) (now : NowT) (s : SavedSearch)
    (hnd : (st.searches.map fun x => x.id).Nodup)
    (hs : s ∈ st.searches)
    (hscope : (match uid with
      | some u => s.userId == u
      | none => true) = true)
    (hen : (s.emailEnabled || s.inAppEnabled || s.pushEnabled) = true)
    (hI : (normalizeCadence s.digestCadence == "instant") = true)
    (hia : s.inAppEnabled = true)
    (hq : (channelPendingCounts s (pendingAlertsOf st s)).pendingUniqueCount ≠ 0) :
    (∀ a ∈ st.alerts, a.savedSearchId = s.id → a.inAppSentAt = none →
      ∃ b ∈ (runAlertDeliveryJob st uid e p now).store.alerts,
        b.id = a.id ∧ b.inAppSentAt = some now.ms) ∧
    inAppLogsFor s.id (runAlertDeliveryJob st uid e p now).store.logs =
      inAppLogsFor s.id st.logs +
        ((pendingAlertsOf st s).filter fun a => a.inAppSentAt.isNone).length := by
  have hccia : (channelPendingCounts s (pendingAlertsOf st s)).inAppAlerts =
      (pendingAlertsOf st s).filter fun a => a.inAppSentAt.isNone := by
    unfold channelPendingCounts
    dsimp only
    rw [if_pos hia]
  have hmem : (s, pendingAlertsOf st s) ∈ fetchPendingSearches st uid := by
    unfold fetchPendingSearches
    exact List.mem_map.2
      ⟨s, List.mem_filter.2 ⟨hs, by rw [hscope, hen]; rfl⟩, rfl⟩
  obtain ⟨L1, L2, hsplit⟩ := List.append_of_mem hmem
  have hfnd := fetch_ids_nodup st uid hnd
  rw [hsplit, List.map_append, List.map_cons] at hfnd
  obtain ⟨hnd1, hnd2, hdisj⟩ := List.nodup_append.1 hfnd
  have hL1 : ∀ en ∈ L1, (en.1.id == s.id) = false := by
    intro en hen1
    refine beq_eq_false_iff_ne.mpr fun heq => ?_
    exact hdisj (List.mem_map_of_mem _ hen1)
      (by rw [heq]; exact List.mem_cons_self _ _)
  have hL2 : ∀ en ∈ L2, (en.1.id == s.id) = false := by
    intro en hen2
    refine beq_eq_false_iff_ne.mpr fun heq => ?_
    exact (List.nodup_cons.1 hnd2).1 (heq ▸ List.mem_map_of_mem _ hen2)
  have hinit : (initialRunState st).store.alerts =
      st.alerts.map (markByAttempts (initialRunState st).attempts now.ms) := by
    have hfun : markByAttempts ([] : List DeliveryAttempt) now.ms = id :=
      funext fun a => markByAttempts_nil now.ms a
    show st.alerts = st.alerts.map (markByAttempts [] now.ms)
    rw [hfun, List.map_id]
  have hrw : runAlertDeliveryJob st uid e p now =
      L2.foldl (processSearch e p now)
        (processSearch e p now (L1.foldl (processSearch e p now)
          (initialRunState st)) (s, pendingAlertsOf st s)) := by
    rw [runAlertDeliveryJob, hsplit, List.foldl_append, List.foldl_cons]
  obtain ⟨hmidmap, _⟩ := foldl_processSearch_attempts st e p now L1
    (initialRunState st) hinit
  obtain ⟨hmap1, n1, hat1, _⟩ := processSearch_spec st e p now
    (L1.foldl (processSearch e p now) (initialRunState st))
    (s, pendingAlertsOf st s) hmidmap
  obtain ⟨hfinmap, n2, hat2⟩ := foldl_processSearch_attempts st e p now L2 _ hmap1
  have hfinmap' : (runAlertDeliveryJob st uid e p now).store.alerts =
      st.alerts.map
        (markByAttempts (runAlertDeliveryJob st uid e p now).attempts now.ms) := by
    rw [hrw]
    exact hfinmap
  constructor
  · intro a ha hasid hanone
    have hacc : a ∈ (channelPendingCounts s (pendingAlertsOf st s)).inAppAlerts := by
      rw [hccia]
      refine List.mem_filter.2 ⟨?_, by simp [hanone]⟩
      refine List.mem_filter.2 ⟨ha, ?_⟩
      dsimp only
      rw [hasid, hanone]
      simp
    have hnemp : (channelPendingCounts s (pendingAlertsOf st s)).inAppAlerts.isEmpty
        = false := by
      cases hemp : (channelPendingCounts s (pendingAlertsOf st s)).inAppAlerts.isEmpty with
      | false => rfl
      | true =>
        rw [List.isEmpty_iff.1 hemp] at hacc
        exact absurd hacc (List.not_mem_nil a)
    have hbatch := processSearch_inApp_attempt e p now
      (L1.foldl (processSearch e p now) (initialRunState st))
      (s, pendingAlertsOf st s) hq hI hnemp
    have hbatchfin : (⟨s.id, "in_app", "instant", true,
        (channelPendingCounts s (pendingAlertsOf st s)).inAppAlerts.map
          fun x => x.id⟩ : DeliveryAttempt) ∈
        (runAlertDeliveryJob st uid e p now).attempts := by
      rw [hrw, hat2]
      exact List.mem_append_left _ hbatch
    have hcov : coveredAccepted (runAlertDeliveryJob st uid e p now).attempts
        "in_app" a.id = true :=
      coveredAccepted_of_mem _ _ _ _ hbatchfin rfl rfl
        (List.mem_map_of_mem _ hacc)
    refine ⟨markByAttempts (runAlertDeliveryJob st uid e p now).attempts now.ms a,
      ?_, rfl, ?_⟩
    · rw [hfinmap']
      exact List.mem_map_of_mem _ ha
    · show (if coveredAccepted (runAlertDeliveryJob st uid e p now).attempts
          "in_app" a.id then some now.ms else a.inAppSentAt) = some now.ms
      rw [if_pos hcov]
  · rw [hrw]
    rw [foldl_inAppLogs_ne e p now s.id L2 _ hL2]
    have hself : inAppLogsFor s.id
        (processSearch e p now (L1.foldl (processSearch e p now)
          (initialRunState st)) (s, pendingAlertsOf st s)).store.logs =
        inAppLogsFor s.id
          (L1.foldl (processSearch e p now) (initialRunState st)).store.logs +
          (channelPendingCounts s (pendingAlertsOf st s)).inAppAlerts.length :=
      processSearch_inAppLogs_self e p now _ (s, pendingAlertsOf st s) hq hI
    rw [hself, foldl_inAppLogs_ne e p now s.id L1 _ hL1, hccia]
    rfl

def cSearch : SavedSearch :=
  ⟨2, "u", "L", "instant", 8, none, false, true, false, false, "u@x"⟩

def cJob : AlertJobInfo := ⟨"T", "C", "L", "S", 50⟩

def cAlert1 : JobAlert := ⟨30, 2, "r", none, none, none, cJob⟩

def cAlert2 : JobAlert := ⟨31, 2, "r", none, none, none, cJob⟩

def cStore : AlertStore := ⟨[cSearch], [cAlert1, cAlert2], []⟩

def cReject : ℕ → SendResult := fun _ => ⟨false, "resend", none, some "rejected"⟩

def cNow : NowT := ⟨0, 12⟩

/-- Counterexample to C6 as stated: an instant-cadence search with two
pending in-app alerts gets both alerts marked sent but two in-app
delivery-log rows, not exactly one. -/
theorem instant_inApp_single_log_counterexample :
    ((channelPendingCounts cSearch
      (pendingAlertsOf cStore cSearch)).inAppAlerts.length = 2 ∧
      (runAlertDeliveryJob cStore none cReject cReject cNow).store.alerts.map
        (fun a => a.inAppSentAt) = [some 0, some 0]) ∧
    inAppLogsFor cSearch.id
      (runAlertDeliveryJob cStore none cReject cReject cNow).store.logs = 2 ∧
    ¬ inAppLogsFor cSearch.id
      (runAlertDeliveryJob cStore none cReject cReject cNow).store.logs = 1 := by
  decide

/-- Witness for the amended C6 at a concrete two-alert instant search. -/
theorem runAlertDeliveryJob_instant_inApp_witness :
    cSearch.inAppEnabled = true ∧
    (channelPendingCounts cSearch
      (pendingAlertsOf cStore cSearch)).pendingUniqueCount ≠ 0 ∧
    (∀ a ∈ cStore.alerts, a.savedSearchId = cSearch.id → a.inAppSentAt = none →
      ∃ b ∈ (runAlertDeliveryJob cStore none cReject cReject cNow).store.alerts,
        b.id = a.id ∧ b.inAppSentAt = some cNow.ms) ∧
    inAppLogsFor cSearch.id
      (runAlertDeliveryJob cStore none cReject cReject cNow).store.logs =
      inAppLogsFor cSearch.id cStore.logs +
        ((pendingAlertsOf cStore cSearch).filter
          fun a => a.inAppSentAt.isNone).length := by
  have h := runAlertDeliveryJob_instant_inApp cStore none cReject cReject cNow
    cSearch (by decide) (by decide) (by decide) (by decide) (by decide)
    (by decide) (by decide)
  exact ⟨by decide, by decide, h.1, h.2⟩

/-! ### Preview versus run accounting (attempted deliveries) -/

theorem bumpScanned_attempted (r : RunState) (n : ℕ) :
    ({ r with searchesScanned := n } : RunState).attemptedDeliveries =
      r.attemptedDeliveries := rfl

theorem setAttempted_attempted (r : RunState) (n : ℕ) :
    ({ r with attemptedDeliveries := n } : RunState).attemptedDeliveries = n := rfl

theorem emailIterState_attempted (e : ℕ → SendResult) (s : SavedSearch)
    (now : NowT) (alert : JobAlert) (rs : RunState) :
    (emailIterState e s now alert rs).attemptedDeliveries =
      rs.attemptedDeliveries + 1 := by
  unfold emailIterState
  dsimp only
  split <;> rfl

theorem instantEmailLoop_attempted (e : ℕ → SendResult) (s : SavedSearch)
    (now : NowT) :
    ∀ (alerts : List JobAlert) (rs : RunState),
      (instantEmailLoop e s now alerts rs).attemptedDeliveries =
        rs.attemptedDeliveries + alerts.length
  | [], _ => rfl
  | alert :: rest, rs => by
    rw [instantEmailLoop, instantEmailLoop_attempted e s now rest _,
      emailIterState_attempted]
    simp only [List.length_cons]
    omega

theorem pushIterState_attempted (p : ℕ → SendResult) (s : SavedSearch)
    (now : NowT) (alert : JobAlert) (rs : RunState) :
    (pushIterState p s now alert rs).attemptedDeliveries =
      rs.attemptedDeliveries := by
  unfold pushIterState
  dsimp only
  split <;> rfl

theorem pushInstantLoop_attempted (p : ℕ → SendResult) (s : SavedSearch)
    (now : NowT) :
    ∀ (alerts : List JobAlert) (rs : RunState),
      (pushInstantLoop p s now alerts rs).attemptedDeliveries =
        rs.attemptedDeliveries
  | [], _ => rfl
  | alert :: rest, rs => by
    rw [pushInstantLoop, pushInstantLoop_attempted p s now rest _,
      pushIterState_attempted]

theorem instantInAppStep_attempted (s : SavedSearch)
    (inAppAlerts : List JobAlert) (now : NowT) (rs : RunState) :
    (instantInAppStep s inAppAlerts now rs).attemptedDeliveries =
      rs.attemptedDeliveries + inAppAlerts.length := rfl

theorem deliverPushDigest_attempted (p : ℕ → SendResult) (s : SavedSearch)
    (alerts : List JobAlert) (now : NowT) (cadence : String) (rs : RunState) :
    (deliverPushDigest p s alerts now cadence rs).attemptedDeliveries =
      rs.attemptedDeliveries := by
  unfold deliverPushDigest
  dsimp only
  split <;> rfl

/-- Per-entry contribution of a search to the preview's pending email count. -/
def previewEmailOf (en : SavedSearch × List JobAlert) : ℕ :=
  if (channelPendingCounts en.1 en.2).pendingUniqueCount = 0 then 0
  else (channelPendingCounts en.1 en.2).emailAlerts.length

/-- Per-entry contribution of a search to the preview's pending in-app count. -/
def previewInAppOf (en : SavedSearch × List JobAlert) : ℕ :=
  if (channelPendingCounts en.1 en.2).pendingUniqueCount = 0 then 0
  else (channelPendingCounts en.1 en.2).inAppAlerts.length

/-- Per-entry contribution of a search to the preview's pending push count. -/
def previewPushOf (en : SavedSearch × List JobAlert) : ℕ :=
  if (channelPendingCounts en.1 en.2).pendingUniqueCount = 0 then 0
  else (channelPendingCounts en.1 en.2).pushAlerts.length

theorem processSearch_attempted (e p : ℕ → SendResult) (now : NowT)
    (rs : RunState) (en : SavedSearch × List JobAlert)
    (hcond : (channelPendingCounts en.1 en.2).pendingUniqueCount ≠ 0 →
      (normalizeCadence en.1.digestCadence == "instant") = true ∧
        en.1.pushDeferred = false) :
    (processSearch e p now rs en).attemptedDeliveries =
      rs.attemptedDeliveries +
        (previewEmailOf en + previewInAppOf en + previewPushOf en) := by
  unfold processSearch previewEmailOf previewInAppOf previewPushOf
  dsimp only
  set cc := channelPendingCounts en.1 en.2 with hcc
  by_cases hq : cc.pendingUniqueCount = 0
  · rw [if_pos hq, if_pos hq, if_pos hq, if_pos hq]
    rfl
  obtain ⟨hI, hd⟩ := hcond hq
  rw [if_neg hq, if_neg hq, if_neg hq, if_neg hq, if_neg (by simp [hI]),
    if_pos hI]
  have h2 : (if cc.inAppAlerts.isEmpty then
      instantEmailLoop e en.1 now cc.emailAlerts
        { rs with searchesScanned := rs.searchesScanned + 1 }
    else instantInAppStep en.1 cc.inAppAlerts now
      (instantEmailLoop e en.1 now cc.emailAlerts
        { rs with searchesScanned := rs.searchesScanned + 1 })).attemptedDeliveries =
      rs.attemptedDeliveries + cc.emailAlerts.length + cc.inAppAlerts.length := by
    by_cases hiae : cc.inAppAlerts.isEmpty = true
    · rw [if_pos hiae, instantEmailLoop_attempted, bumpScanned_attempted]
      have hlen : cc.inAppAlerts.length = 0 := by
        rw [List.isEmpty_iff.1 hiae]
        rfl
      omega
    · rw [if_neg hiae, instantInAppStep_attempted, instantEmailLoop_attempted,
        bumpScanned_attempted]
  by_cases hpu : cc.pushAlerts.isEmpty = true
  · rw [if_pos hpu, h2]
    have hlen : cc.pushAlerts.length = 0 := by
      rw [List.isEmpty_iff.1 hpu]
      rfl
    omega
  · rw [if_neg hpu, if_neg (by simp [hd]), pushInstantLoop_attempted,
      setAttempted_attempted, h2]
    omega

theorem foldl_processSearch_attempted (e p : ℕ → SendResult) (now : NowT) :
    ∀ (entries : List (SavedSearch × List JobAlert)) (rs : RunState),
      (∀ en ∈ entries,
        (channelPendingCounts en.1 en.2).pendingUniqueCount ≠ 0 →
        (normalizeCadence en.1.digestCadence == "instant") = true ∧
          en.1.pushDeferred = false) →
      (entries.foldl (processSearch e p now) rs).attemptedDeliveries =
        rs.attemptedDeliveries +
          (entries.map fun en =>
            previewEmailOf en + previewInAppOf en + previewPushOf en).sum
  | [], _, _ => by simp
  | en :: rest, rs, h => by
    rw [List.foldl_cons,
      foldl_processSearch_attempted e p now rest _
        (fun x hx => h x (List.mem_cons_of_mem _ hx)),
      processSearch_attempted e p now rs en (h en (List.mem_cons_self _ _)),
      List.map_cons, List.sum_cons]
    omega

theorem foldl_previewStep_field (now : NowT) (f : AlertDeliveryPreview → ℕ)
    (g : SavedSearch × List JobAlert → ℕ)
    (hstep : ∀ acc en, f (previewStep now acc en) = f acc + g en) :
    ∀ (entries : List (SavedSearch × List JobAlert)) (acc : AlertDeliveryPreview),
      f (entries.foldl (previewStep now) acc) = f acc + (entries.map g).sum
  | [], _ => by simp
  | en :: rest, acc => by
    rw [List.foldl_cons, foldl_previewStep_field now f g hstep rest _, hstep,
      List.map_cons, List.sum_cons]
    omega

theorem previewStep_email (now : NowT) (acc : AlertDeliveryPreview)
    (en : SavedSearch × List JobAlert) :
    (previewStep now acc en).pendingEmailAlerts =
      acc.pendingEmailAlerts + previewEmailOf en := by
  unfold previewStep previewEmailOf
  dsimp only
  by_cases hq : (channelPendingCounts en.1 en.2).pendingUniqueCount = 0
  · rw [if_pos hq, if_pos hq]
    rfl
  · rw [if_neg hq, if_neg hq]

theorem previewStep_inApp (now : NowT) (acc : AlertDeliveryPreview)
    (en : SavedSearch × List JobAlert) :
    (previewStep now acc en).pendingInAppAlerts =
      acc.pendingInAppAlerts + previewInAppOf en := by
  unfold previewStep previewInAppOf
  dsimp only
  by_cases hq : (channelPendingCounts en.1 en.2).pendingUniqueCount = 0
  · rw [if_pos hq, if_pos hq]
    rfl
  · rw [if_neg hq, if_neg hq]

theorem previewStep_push (now : NowT) (acc : AlertDeliveryPreview)
    (en : SavedSearch × List JobAlert) :
    (previewStep now acc en).pendingPushAlerts =
      acc.pendingPushAlerts + previewPushOf en := by
  unfold previewStep previewPushOf
  dsimp only
  by_cases hq : (channelPendingCounts en.1 en.2).pendingUniqueCount = 0
  · rw [if_pos hq, if_pos hq]
    rfl
  · rw [if_neg hq, if_neg hq]

theorem sum_map_add3 (l : List (SavedSearch × List JobAlert))
    (f g h : SavedSearch × List JobAlert → ℕ) :
    (l.map fun x => f x + g x + h x).sum =
      (l.map f).sum + (l.map g).sum + (l.map h).sum := by
  induction l with
  | nil => simp
  | cons x xs ih =>
    simp only [List.map_cons, List.sum_cons]
    omega

/-- C5 (amended): when every fetched search with pending alerts has instant
cadence and per-alert (non-deferred) push, the run's attempted-delivery count
equals the sum of the preview's per-channel pending counts. -/
theorem preview_attempted_eq (st : AlertStore) (uid : Option String)
    (e p : ℕ → SendResult) (now : NowT)
    (hcond : ∀ en ∈ fetchPendingSearches st uid,
      (channelPendingCounts en.1 en.2).pendingUniqueCount ≠ 0 →
      (normalizeCadence en.1.digestCadence == "instant") = true ∧
        en.1.pushDeferred = false) :
    (runAlertDeliveryJob st uid e p now).attemptedDeliveries =
      (getAlertDeliveryPreview st uid now).pendingEmailAlerts +
        (getAlertDeliveryPreview st uid now).pendingInAppAlerts +
        (getAlertDeliveryPreview st uid now).pendingPushAlerts := by
  unfold runAlertDeliveryJob getAlertDeliveryPreview
  rw [foldl_processSearch_attempted e p now _ _ hcond,
    foldl_previewStep_field now (fun a => a.pendingEmailAlerts) previewEmailOf
      (previewStep_email now) _ _,
    foldl_previewStep_field now (fun a => a.pendingInAppAlerts) previewInAppOf
      (previewStep_inApp now) _ _,
    foldl_previewStep_field now (fun a => a.pendingPushAlerts) previewPushOf
      (previewStep_push now) _ _,
    sum_map_add3]
  simp only [initialRunState]
  omega

def vJob : AlertJobInfo := ⟨"T", "C", "L", "S", 50⟩

def vSearch : SavedSearch :=
  ⟨4, "u", "L", "daily", 8, none, true, false, false, false, "u@x"⟩

def vAlert : JobAlert := ⟨40, 4, "r", none, none, none, vJob⟩

def vStore : AlertStore := ⟨[vSearch], [vAlert], []⟩

def vReject : ℕ → SendResult := fun _ => ⟨false, "resend", none, some "rejected"⟩

def vNow : NowT := ⟨0, 5⟩

/-- Counterexample to C5 as stated: a waiting (not yet due) daily digest
search has pending preview counts of 1 while the immediate run attempts no
delivery at all. -/
theorem preview_run_counts_counterexample :
    (getAlertDeliveryPreview vStore none vNow).pendingAlerts = 1 ∧
    (getAlertDeliveryPreview vStore none vNow).pendingEmailAlerts = 1 ∧
    (runAlertDeliveryJob vStore none vReject vReject vNow).attemptedDeliveries
      = 0 ∧
    ¬ ((getAlertDeliveryPreview vStore none vNow).pendingAlerts =
        (runAlertDeliveryJob vStore none vReject vReject
          vNow).attemptedDeliveries) := by
  decide

/-- Witness for the amended C5 at a concrete all-instant store. -/
theorem preview_attempted_eq_witness :
    (∀ en ∈ fetchPendingSearches cStore none,
      (channelPendingCounts en.1 en.2).pendingUniqueCount ≠ 0 →
      (normalizeCadence en.1.digestCadence == "instant") = true ∧
        en.1.pushDeferred = false) ∧
    (runAlertDeliveryJob cStore none cReject cReject cNow).attemptedDeliveries =
      (getAlertDeliveryPreview cStore none cNow).pendingEmailAlerts +
        (getAlertDeliveryPreview cStore none cNow).pendingInAppAlerts +
        (getAlertDeliveryPreview cStore none cNow).pendingPushAlerts := by
  have h := preview_attempted_eq cStore none cReject cReject cNow (by decide)
  exact ⟨by decide, h⟩

def dJob : AlertJobInfo := ⟨"T", "C", "L", "S", 50⟩

def dSearch : SavedSearch :=
  ⟨1, "u", "L", "daily", 8, none, true, false, false, false, "u@x"⟩

def dAlert : JobAlert := ⟨20, 1, "r", none, none, none, dJob⟩

def dStore : AlertStore := ⟨[dSearch], [dAlert], []⟩

def dReject : ℕ → SendResult := fun _ => ⟨false, "resend", none, some "rejected"⟩

def dNow : NowT := ⟨0, 12⟩

def dNow2 : NowT := ⟨3600000, 12⟩

/-- Witness for C10: a due daily digest search whose only pending alert is
rejected by the email provider still gets `lastDigestAt` stamped, and a run
one hour later makes no attempt for it. -/
theorem runAlertDeliveryJob_digest_lastDigestAt_witness :
    (dStore.searches.map fun x => x.id).Nodup ∧
    dNow2.ms - dNow.ms <
      (cadenceIntervalHours (normalizeCadence dSearch.digestCadence) : ℤ) *
        3600000 ∧
    (∀ x ∈ (runAlertDeliveryJob dStore none dReject dReject dNow).store.searches,
      x.id = dSearch.id → x = { dSearch with lastDigestAt := some dNow.ms }) ∧
    ∀ t ∈ (runAlertDeliveryJob
        (runAlertDeliveryJob dStore none dReject dReject dNow).store
        none dReject dReject dNow2).attempts, t.searchId ≠ dSearch.id := by
  have h := runAlertDeliveryJob_digest_lastDigestAt dStore none dReject dReject
    dNow dSearch (by decide) (by decide) (by decide) (by decide) (by decide)
    (by decide) (by decide)
  exact ⟨by decide, by decide, h.1, h.2 none dReject dReject dNow2 (by decide)⟩

end Faypath
